import Mathlib

/-!
# go-zrx: asset data, 0x transactions and their JSON codec

A shallow embedding of `asset_data.go`, `transaction.go` and `types.go`.

* Go `[]byte` and Go `string` are both sequences of bytes: `Bytes`.
* `*big.Int` is `Option Int` (`none` is the nil pointer).
* `common.Address` is a list of exactly 20 bytes, `common.Hash` one of exactly 32.
* Functions of the Go standard library and of go-ethereum that the repository
  calls are modelled next to their callers, each under the name it has in Go.
* Keccak-256, the EIP-712 struct hash and the contract-address registry are
  parameters (`Env`): the repository treats them as black boxes.
-/

namespace Zrx

/-! ## Bytes and strings -/

abbrev Byte := Fin 256

abbrev Bytes := List Byte

/-- The bytes of an ASCII string literal. -/
def ascii (s : String) : Bytes := s.toList.map (fun c => Fin.ofNat c.toNat)

/-- Type `common.Address`: 20 bytes. -/
abbrev Address := { l : Bytes // l.length = 20 }

/-- Type `common.Hash`: 32 bytes. -/
abbrev Hash := { l : Bytes // l.length = 32 }

/-- The zero value `common.Address{}`. -/
def Address.zero : Address := ⟨List.replicate 20 0, by decide⟩

/-- The zero value `common.Hash{}`. -/
def Hash.zero : Hash := ⟨List.replicate 32 0, by decide⟩

/-! ## encoding/hex -/

/-- Constant `hextable` of encoding/hex. -/
def hextable : Bytes := ascii "0123456789abcdef"

/-- Go `hex.EncodeToString`: two lower-case digits per byte. -/
def hexEncodeToString : Bytes → Bytes
  | [] => []
  | v :: rest =>
      hextable.getD (v.val / 16) 0 :: hextable.getD (v.val % 16) 0 :: hexEncodeToString rest

/-- Go `fromHexChar`: the value of one hex digit, either case. -/
def fromHexChar (c : Byte) : Option Byte :=
  if 48 ≤ c ∧ c ≤ 57 then some (c - 48)
  else if 97 ≤ c ∧ c ≤ 102 then some (c - 97 + 10)
  else if 65 ≤ c ∧ c ≤ 70 then some (c - 65 + 10)
  else none

/-- Errors of encoding/hex: `InvalidByteError` and `ErrLength`. -/
inductive HexError where
  | invalidByte (b : Byte)
  | length
  deriving DecidableEq, Repr

/-- Go `hex.DecodeString`: the bytes decoded before the first error, and the
error if any. An invalid digit is reported before an odd length. The byte
`(a << 4) | b` is `a * 16 + b` since both digits are below 16. -/
def hexDecodeString : Bytes → Bytes × Option HexError
  | [] => ([], none)
  | [c] =>
      match fromHexChar c with
      | none => ([], some (HexError.invalidByte c))
      | some _ => ([], some HexError.length)
  | p :: q :: rest =>
      match fromHexChar p with
      | none => ([], some (HexError.invalidByte p))
      | some a =>
          match fromHexChar q with
          | none => ([], some (HexError.invalidByte q))
          | some b => ((a * 16 + b) :: (hexDecodeString rest).1, (hexDecodeString rest).2)

/-! ## go-ethereum `common` and `hexutil` -/

/-- Function `common.LeftPadBytes`. -/
def LeftPadBytes (slice : Bytes) (l : Nat) : Bytes :=
  if l ≤ slice.length then slice
  else List.replicate (l - slice.length) 0 ++ slice

/-- Function `common.Hex2Bytes`: the decoded bytes, the error dropped. -/
def Hex2Bytes (str : Bytes) : Bytes := (hexDecodeString str).1

/-- Helper `has0xPrefix` of go-ethereum: `0x` or `0X`. -/
def has0x (input : Bytes) : Bool :=
  match input with
  | a :: b :: _ => a == 48 && (b == 120 || b == 88)
  | _ => false

/-- Function `common.FromHex`: optional prefix, odd lengths get a leading `0`. -/
def FromHex (s : Bytes) : Bytes :=
  let s1 := if has0x s then s.drop 2 else s
  let s2 := if s1.length % 2 = 1 then (48 : Byte) :: s1 else s1
  Hex2Bytes s2

/-- Function `common.BytesToAddress`: the last 20 bytes, left-padded with zeros. -/
def BytesToAddress (b : Bytes) : Address :=
  ⟨List.replicate (20 - (b.drop (b.length - 20)).length) 0 ++ b.drop (b.length - 20), by
    simp only [List.length_append, List.length_replicate, List.length_drop]; omega⟩

/-- Function `common.BytesToHash`: the last 32 bytes, left-padded with zeros. -/
def BytesToHash (b : Bytes) : Hash :=
  ⟨List.replicate (32 - (b.drop (b.length - 32)).length) 0 ++ b.drop (b.length - 32), by
    simp only [List.length_append, List.length_replicate, List.length_drop]; omega⟩

/-- Function `common.HexToAddress`. -/
def HexToAddress (s : Bytes) : Address := BytesToAddress (FromHex s)

/-- Function `hexutil.Encode`: `0x` followed by the lower-case hex digits. -/
def hexutilEncode (b : Bytes) : Bytes := ascii "0x" ++ hexEncodeToString b

/-- Function `hexutil.Decode`: the bytes and the error, as Go returns them.
The errors of encoding/hex are mapped by `mapError`. -/
def hexutilDecode (input : Bytes) : Bytes × Option String :=
  if input.length = 0 then ([], some "empty hex string")
  else if !has0x input then ([], some "hex string without 0x prefix")
  else
    match hexDecodeString (input.drop 2) with
    | (b, none) => (b, none)
    | (b, some (HexError.invalidByte _)) => (b, some "invalid hex string")
    | (b, some HexError.length) => (b, some "hex string of odd length")

/-! ## math/big and strings -/

/-- The decimal digits of `n` as numbers, most significant first; `fuel`
bounds the number of digits. -/
def decimalDigits : Nat → Nat → List Nat
  | 0, _ => []
  | fuel + 1, n =>
      if n < 10 then [n] else decimalDigits fuel (n / 10) ++ [n % 10]

/-- The ASCII digit for a value below ten. -/
def digitByte (d : Nat) : Byte := 48 + Fin.ofNat d

/-- The base-10 text of a natural number, no leading zeros. -/
def natString (n : Nat) : Bytes := (decimalDigits (n + 1) n).map digitByte

/-- Method `(*big.Int).String`: base 10, a leading `-` for negative values,
and `<nil>` for the nil pointer. -/
def bigString : Option Int → Bytes
  | none => ascii "<nil>"
  | some x => if x < 0 then (45 : Byte) :: natString x.natAbs else natString x.natAbs

/-- The digit loop of `nat.scan` in base 10: every byte must be a digit. -/
def scanDigits : Bytes → Nat → Option Nat
  | [], acc => some acc
  | c :: rest, acc =>
      if 48 ≤ c ∧ c ≤ 57 then scanDigits rest (acc * 10 + (c.val - 48)) else none

/-- Method `(*big.Int).SetString(s, 10)`: an optional sign, then one or more
decimal digits and nothing else; `none` is the result `ok == false`. -/
def SetString (s : Bytes) : Option Int :=
  let neg := s.head? = some 45
  let body := if s.head? = some 45 ∨ s.head? = some 43 then s.tail else s
  if body = [] then none
  else
    match scanDigits body 0 with
    | none => none
    | some n => some (if neg then -(n : Int) else (n : Int))

/-- Function `strings.ToLower` on one ASCII byte. -/
def toLowerByte (c : Byte) : Byte := if 65 ≤ c ∧ c ≤ 90 then c + 32 else c

/-- Function `strings.ToLower` on ASCII text, the only text the repository
passes to it (the output of `Address.Hex`). -/
def ToLower (s : Bytes) : Bytes := s.map toLowerByte

/-- The loop of `Address.Hex` (EIP-55), from index `i` on: a letter is
upper-cased when the matching nibble of the hash is above 7. -/
def checksumFrom (hash : Bytes) : Nat → Bytes → Bytes
  | _, [] => []
  | i, c :: rest =>
      let hashByte := hash.getD (i / 2) 0
      let nibble := if i % 2 = 0 then hashByte / 16 else hashByte % 16
      (if c > 57 ∧ nibble > 7 then c - 32 else c) :: checksumFrom hash (i + 1) rest

/-- Method `common.Address.Hex`: the EIP-55 checksummed text, over the given
Keccak-256. -/
def Address.Hex (keccak : Bytes → Hash) (a : Address) : Bytes :=
  let unchecksummed := hexEncodeToString a.val
  let hash := keccak unchecksummed
  ascii "0x" ++ checksumFrom hash.val 0 unchecksummed

/-! ## EIP-712 typed data (go-ethereum `signer/core`) and types.go -/

/-- A value of a `map[string]interface{}` handed to the typed-data hasher:
a Go string, a byte slice or a `*math.HexOrDecimal256`. -/
inductive TypedValue where
  | str (s : Bytes)
  | bytes (b : Bytes)
  | int (n : Int)
  deriving DecidableEq, Repr

/-- Type `core.TypedDataMessage`: `map[string]interface{}`, as its entries. -/
abbrev TypedDataMessage := List (String × TypedValue)

/-- Type `core.Types`: each type name with its fields `(Name, Type)`. -/
abbrev Types := List (String × List (String × String))

/-- Type `core.TypedDataDomain`. -/
structure TypedDataDomain where
  Name : Bytes
  Version : Bytes
  ChainId : Option Int
  VerifyingContract : Bytes
  Salt : Bytes
  deriving DecidableEq, Repr

/-- Method `TypedDataDomain.Map`: the entries that are set. -/
def TypedDataDomain.Map (domain : TypedDataDomain) : TypedDataMessage :=
  (match domain.ChainId with
    | some c => [("chainId", TypedValue.int c)]
    | none => [])
  ++ (if domain.Name.length > 0 then [("name", TypedValue.str domain.Name)] else [])
  ++ (if domain.Version.length > 0 then [("version", TypedValue.str domain.Version)] else [])
  ++ (if domain.VerifyingContract.length > 0 then
        [("verifyingContract", TypedValue.str domain.VerifyingContract)] else [])
  ++ (if domain.Salt.length > 0 then [("salt", TypedValue.str domain.Salt)] else [])

/-- Type `core.TypedData`. -/
structure TypedData where
  Types : Types
  PrimaryType : String
  Domain : TypedDataDomain
  Message : TypedDataMessage
  deriving DecidableEq, Repr

def ZeroExTestChainID : Int := 1337

def TypeEIP712Domain : String := "EIP712Domain"

def TypeZeroExTransaction : String := "ZeroExTransaction"

/-- Variable `EIP712Types` of types.go. -/
def EIP712Types : Types :=
  [ ("EIP712Domain",
      [("name", "string"), ("version", "string"), ("chainId", "uint256"),
       ("verifyingContract", "address")]),
    ("ZeroExTransaction",
      [("salt", "uint256"), ("expirationTimeSeconds", "uint256"), ("gasPrice", "uint256"),
       ("signerAddress", "address"), ("data", "bytes")]) ]

/-- Type `ethereum.ContractAddresses` of 0x-mesh, the fields the repository reads. -/
structure ContractAddresses where
  Exchange : Address
  DevUtils : Address
  deriving DecidableEq, Repr

/-- The black boxes behind the transaction hash: the contract-address registry
of 0x-mesh, Keccak-256, and `TypedData.HashStruct` of go-ethereum, which
returns the 32-byte Keccak-256 of the encoded struct or an error. -/
structure Env where
  GetContractAddressesForChainID : Int → Except String ContractAddresses
  Keccak256 : Bytes → Hash
  HashStruct : TypedData → String → TypedDataMessage → Except String Hash

/-! ## transaction.go: the transaction and its hash -/

def ZeroExProtocolName : Bytes := ascii "0x Protocol"

def ZeroExProtocolVersion : Bytes := ascii "3.0.0"

/-- Type `Transaction` of transaction.go. -/
structure Transaction where
  Salt : Option Int
  ExpirationTimeSeconds : Option Int
  GasPrice : Option Int
  SignerAddress : Address
  Data : Bytes
  hash : Option Hash
  deriving DecidableEq, Repr

/-- Method `Transaction.Map`. -/
def Transaction.Map (env : Env) (tx : Transaction) : TypedDataMessage :=
  [ ("salt", TypedValue.str (bigString tx.Salt)),
    ("expirationTimeSeconds", TypedValue.str (bigString tx.ExpirationTimeSeconds)),
    ("gasPrice", TypedValue.str (bigString tx.GasPrice)),
    ("signerAddress", TypedValue.str (Address.Hex env.Keccak256 tx.SignerAddress)),
    ("data", TypedValue.bytes tx.Data) ]

/-- The `core.TypedData` value that `ComputeHashForChainID` builds. -/
def Transaction.typedData (env : Env) (tx : Transaction) (chainID : Int)
    (contractAddresses : ContractAddresses) : TypedData :=
  { Types := EIP712Types
    PrimaryType := TypeZeroExTransaction
    Domain :=
      { Name := ZeroExProtocolName
        Version := ZeroExProtocolVersion
        ChainId := some chainID
        VerifyingContract := Address.Hex env.Keccak256 contractAddresses.Exchange
        Salt := [] }
    Message := tx.Map env }

/-- The bytes of `fmt.Sprintf("\x19\x01%s%s", ...)`: Go strings are byte
sequences, so the two hashes are appended as they are. -/
def rawData (domainSeparator typedDataHash : Bytes) : Bytes :=
  [0x19, 0x01] ++ domainSeparator ++ typedDataHash

/-- Method `Transaction.ComputeHashForChainID`: the returned pair
`(common.Hash, error)` and the transaction afterwards. -/
def Transaction.ComputeHashForChainID (env : Env) (tx : Transaction) (chainID : Int) :
    (Hash × Option String) × Transaction :=
  match tx.hash with
  | some h => ((h, none), tx)
  | none =>
    match env.GetContractAddressesForChainID chainID with
    | Except.error err => ((Hash.zero, some err), tx)
    | Except.ok contractAddresses =>
      let typedData := tx.typedData env chainID contractAddresses
      match env.HashStruct typedData TypeEIP712Domain typedData.Domain.Map with
      | Except.error err => ((Hash.zero, some err), tx)
      | Except.ok domainSeparator =>
        match env.HashStruct typedData typedData.PrimaryType typedData.Message with
        | Except.error err => ((Hash.zero, some err), tx)
        | Except.ok typedDataHash =>
          let hashBytes := env.Keccak256 (rawData domainSeparator.val typedDataHash.val)
          let hash := BytesToHash hashBytes.val
          ((hash, none), { tx with hash := some hash })

/-- Method `Transaction.ResetHash`. -/
def Transaction.ResetHash (tx : Transaction) : Transaction := { tx with hash := none }

/-! ## encoding/json

The repository marshals a `map[string]string` and unmarshals into structs of
string fields. Marshalling is modelled on ASCII text, the only text the
repository marshals; unmarshalling on every input. -/

/-- Table `htmlSafeSet` of encoding/json on ASCII: printable bytes other than
the double quote, the backslash, `<`, `>` and `&`. -/
def htmlSafe (b : Byte) : Bool :=
  32 ≤ b && b < 128 && b != 34 && b != 92 && b != 60 && b != 62 && b != 38

/-- The escape that `encodeState.string` writes for one byte (HTML escaping
on, as `json.Marshal` has it). Bytes from 128 on are copied. -/
def jsonEscape (b : Byte) : Bytes :=
  if htmlSafe b || 128 ≤ b then [b]
  else if b = 92 ∨ b = 34 then [92, b]
  else if b = 10 then [92, 110]
  else if b = 13 then [92, 114]
  else if b = 9 then [92, 116]
  else [92, 117, 48, 48, hextable.getD (b.val / 16) 0, hextable.getD (b.val % 16) 0]

def jsonEscapeAll : Bytes → Bytes
  | [] => []
  | b :: rest => jsonEscape b ++ jsonEscapeAll rest

/-- A JSON string literal, as `encodeState.string` writes it. -/
def jsonString (s : Bytes) : Bytes := (34 : Byte) :: (jsonEscapeAll s ++ [34])

/-- Byte-wise `a <= b` on Go strings. -/
def bytesLe : Bytes → Bytes → Bool
  | [], _ => true
  | _ :: _, [] => false
  | a :: as, b :: bs => a < b || (a == b && bytesLe as bs)

def insertEntry (e : Bytes × Bytes) : List (Bytes × Bytes) → List (Bytes × Bytes)
  | [] => [e]
  | x :: rest => if bytesLe e.1 x.1 then e :: x :: rest else x :: insertEntry e rest

/-- The entries of a map in the order `json.Marshal` writes them: sorted by key. -/
def sortEntries (m : List (Bytes × Bytes)) : List (Bytes × Bytes) := m.foldr insertEntry []

def jsonMembers : List (Bytes × Bytes) → Bytes
  | [] => []
  | [e] => jsonString e.1 ++ (58 : Byte) :: jsonString e.2
  | e :: rest => jsonString e.1 ++ (58 : Byte) :: (jsonString e.2 ++ (44 : Byte) :: jsonMembers rest)

/-- Function `json.Marshal` on a `map[string]string`, given as its entries
(keys distinct). It never fails on such a map. -/
def jsonMarshal (m : List (Bytes × Bytes)) : Bytes :=
  (123 : Byte) :: (jsonMembers (sortEntries m) ++ [125])

/-- JSON white space: space, tab, carriage return, line feed. -/
def jsonIsSpace (c : Byte) : Bool := c == 32 || c == 9 || c == 13 || c == 10

def jsonSkipSpace : Bytes → Bytes
  | [] => []
  | c :: rest => if jsonIsSpace c then jsonSkipSpace rest else c :: rest

/-- The byte a one-letter escape stands for. -/
def jsonUnescape (c : Byte) : Option Byte :=
  if c = 34 then some 34
  else if c = 92 then some 92
  else if c = 47 then some 47
  else if c = 98 then some 8
  else if c = 102 then some 12
  else if c = 110 then some 10
  else if c = 114 then some 13
  else if c = 116 then some 9
  else none

/-- The value of the four hex digits that start `s`, either case. -/
def hex4 (s : Bytes) : Option Nat :=
  match s with
  | a :: b :: c :: d :: _ =>
      match fromHexChar a, fromHexChar b, fromHexChar c, fromHexChar d with
      | some x, some y, some z, some w =>
          some (((x.val * 16 + y.val) * 16 + z.val) * 16 + w.val)
      | _, _, _, _ => none
  | _ => none

/-- Function `getu4` of encoding/json: the code unit of an escape `\uXXXX`
that starts `s`. -/
def getu4 (s : Bytes) : Option Nat :=
  match s with
  | a :: b :: rest => if a = 92 ∧ b = 117 then hex4 rest else none
  | _ => none

/-- Function `utf8.EncodeRune`: surrogates and values above U+10FFFF are
written as U+FFFD. -/
def encodeRune (r : Nat) : Bytes :=
  if r < 0x80 then [(Fin.ofNat r : Byte)]
  else if r < 0x800 then [(Fin.ofNat (0xC0 + r / 64) : Byte), (Fin.ofNat (0x80 + r % 64) : Byte)]
  else if (0xD800 ≤ r ∧ r < 0xE000) ∨ 0x10FFFF < r then [0xEF, 0xBF, 0xBD]
  else if r < 0x10000 then
    [(Fin.ofNat (0xE0 + r / 4096) : Byte), (Fin.ofNat (0x80 + r / 64 % 64) : Byte),
      (Fin.ofNat (0x80 + r % 64) : Byte)]
  else
    [(Fin.ofNat (0xF0 + r / 262144) : Byte), (Fin.ofNat (0x80 + r / 4096 % 64) : Byte),
      (Fin.ofNat (0x80 + r / 64 % 64) : Byte), (Fin.ofNat (0x80 + r % 64) : Byte)]

/-- A UTF-8 continuation byte. -/
def utf8IsCont (b : Byte) : Bool := 0x80 ≤ b && b ≤ 0xBF

/-- Function `utf8.DecodeRune` as far as unquoting needs it: the width (2, 3
or 4) of the well-formed UTF-8 sequence that starts `s`, or 0 when `s` starts
with a byte from 128 on that begins none (`RuneError` of width 1). Overlong
forms, surrogates and values above U+10FFFF are not well-formed. -/
def utf8Width (s : Bytes) : Nat :=
  match s with
  | [] => 0
  | b0 :: rest =>
      let b1 := rest.getD 0 0
      let b2 := rest.getD 1 0
      let b3 := rest.getD 2 0
      if 0xC2 ≤ b0 ∧ b0 ≤ 0xDF then (if utf8IsCont b1 then 2 else 0)
      else if b0 = 0xE0 then (if 0xA0 ≤ b1 ∧ b1 ≤ 0xBF ∧ utf8IsCont b2 then 3 else 0)
      else if b0 = 0xED then (if 0x80 ≤ b1 ∧ b1 ≤ 0x9F ∧ utf8IsCont b2 then 3 else 0)
      else if 0xE1 ≤ b0 ∧ b0 ≤ 0xEF then (if utf8IsCont b1 ∧ utf8IsCont b2 then 3 else 0)
      else if b0 = 0xF0 then
        (if 0x90 ≤ b1 ∧ b1 ≤ 0xBF ∧ utf8IsCont b2 ∧ utf8IsCont b3 then 4 else 0)
      else if 0xF1 ≤ b0 ∧ b0 ≤ 0xF3 then
        (if utf8IsCont b1 ∧ utf8IsCont b2 ∧ utf8IsCont b3 then 4 else 0)
      else if b0 = 0xF4 then
        (if 0x80 ≤ b1 ∧ b1 ≤ 0x8F ∧ utf8IsCont b2 ∧ utf8IsCont b3 then 4 else 0)
      else 0

/-- The text decoded so far put in front of the text of the rest. -/
def jsonEmit (out : Bytes) (r : Option (Bytes × Bytes)) : Option (Bytes × Bytes) :=
  match r with
  | some (s, rest) => some (out ++ s, rest)
  | none => none

/-- The rest of a string literal after its opening quote: the decoded text, as
`unquoteBytes` gives it, and what follows the closing quote; `none` when the
scanner rejects the literal (a raw control byte, a bad escape, no closing
quote). `skip` bytes are passed over first (the rest of an escape already
decoded) and `copy` bytes are then copied (the continuation bytes of a UTF-8
sequence already checked). An escape `\uXXXX` becomes the UTF-8 form of its
code point, a surrogate pair of two escapes one code point, a lone surrogate
U+FFFD; a byte from 128 on that starts no well-formed UTF-8 sequence becomes
U+FFFD. -/
def jsonStringBody : Nat → Nat → Bytes → Option (Bytes × Bytes)
  | _, _, [] => none
  | skip + 1, copy, _ :: rest => jsonStringBody skip copy rest
  | 0, copy + 1, c :: rest => jsonEmit [c] (jsonStringBody 0 copy rest)
  | 0, 0, c :: rest =>
      if c = 34 then some ([], rest)
      else if c = 92 then
        match rest.head? with
        | none => none
        | some e =>
            if e = 117 then
              match hex4 rest.tail with
              | none => none
              | some rr =>
                  if 0xD800 ≤ rr ∧ rr < 0xE000 then
                    match getu4 (rest.drop 5) with
                    | some rr1 =>
                        if rr < 0xDC00 ∧ 0xDC00 ≤ rr1 ∧ rr1 < 0xE000 then
                          jsonEmit (encodeRune ((rr - 0xD800) * 1024 + (rr1 - 0xDC00) + 0x10000))
                            (jsonStringBody 11 0 rest)
                        else jsonEmit [0xEF, 0xBF, 0xBD] (jsonStringBody 5 0 rest)
                    | none => jsonEmit [0xEF, 0xBF, 0xBD] (jsonStringBody 5 0 rest)
                  else jsonEmit (encodeRune rr) (jsonStringBody 5 0 rest)
            else
              match jsonUnescape e with
              | some b => jsonEmit [b] (jsonStringBody 1 0 rest)
              | none => none
      else if c < 32 then none
      else if c < 128 then jsonEmit [c] (jsonStringBody 0 0 rest)
      else if utf8Width (c :: rest) = 0 then jsonEmit [0xEF, 0xBF, 0xBD] (jsonStringBody 0 0 rest)
      else jsonEmit [c] (jsonStringBody 0 (utf8Width (c :: rest) - 1) rest)

/-- A string literal at the start of `s`: its text and what follows it. -/
def jsonStringLit (s : Bytes) : Option (Bytes × Bytes) :=
  match s with
  | [] => none
  | c :: rest => if c = 34 then jsonStringBody 0 0 rest else none

/-- The input after the decimal digits that start it. -/
def jsonDropDigits : Bytes → Bytes
  | [] => []
  | c :: rest => if 48 ≤ c ∧ c ≤ 57 then jsonDropDigits rest else c :: rest

/-- The input starts with a decimal digit. -/
def jsonStartsWithDigit (s : Bytes) : Bool :=
  match s with
  | [] => false
  | c :: _ => 48 ≤ c && c ≤ 57

/-- The exponent part of a number, if there is one; what follows the number. -/
def jsonExponent (s : Bytes) : Option Bytes :=
  match s with
  | [] => some []
  | c :: rest =>
      if c = 101 ∨ c = 69 then
        let digits := if rest.head? = some 43 ∨ rest.head? = some 45 then rest.tail else rest
        if jsonStartsWithDigit digits then some (jsonDropDigits digits) else none
      else some (c :: rest)

/-- The fraction and exponent parts of a number, if there are any. -/
def jsonFraction (s : Bytes) : Option Bytes :=
  match s with
  | [] => some []
  | c :: rest =>
      if c = 46 then
        (if jsonStartsWithDigit rest then jsonExponent (jsonDropDigits rest) else none)
      else jsonExponent (c :: rest)

/-- A JSON number at the start of `s`: what follows it. A leading zero is a
number by itself. -/
def jsonNumber (s : Bytes) : Option Bytes :=
  let body := if s.head? = some 45 then s.tail else s
  match body with
  | [] => none
  | d :: rest =>
      if d = 48 then jsonFraction rest
      else if 49 ≤ d ∧ d ≤ 57 then jsonFraction (jsonDropDigits rest)
      else none

/-- The kinds of JSON values, as `UnmarshalTypeError` names them. -/
inductive JKind where
  | null
  | bool
  | number
  | string
  | array
  | object
  deriving DecidableEq, Repr

def JKind.name : JKind → String
  | JKind.null => "null"
  | JKind.bool => "bool"
  | JKind.number => "number"
  | JKind.string => "string"
  | JKind.array => "array"
  | JKind.object => "object"

/-- What the scanner is reading: one value, the rest of an array from an
element on, or the rest of an object from a key on. -/
inductive JMode where
  | value
  | elements
  | members
  deriving DecidableEq, Repr

/-- Constant `maxNestingDepth` of encoding/json: the scanner rejects a
document with more than this many objects and arrays open at once. -/
def maxNestingDepth : Nat := 10000

/-- The scanner of encoding/json over one value that starts `s` (or over the
rest of an array or object): its kind and what follows it, `none` on a syntax
error. `depth` is the number of objects and arrays open around `s`. Every
call passes one unit of `fuel` on; twice the length of the input is enough. -/
def jsonSkip : Nat → Nat → JMode → Bytes → Option (JKind × Bytes)
  | 0, _, _, _ => none
  | fuel + 1, depth, JMode.value, s =>
      match s with
      | [] => none
      | c :: rest =>
          if c = 34 then
            match jsonStringBody 0 0 rest with
            | some (_, r) => some (JKind.string, r)
            | none => none
          else if c = 123 then
            if maxNestingDepth ≤ depth then none
            else
              match jsonSkipSpace rest with
              | [] => none
              | c2 :: r2 =>
                  if c2 = 125 then some (JKind.object, r2)
                  else jsonSkip fuel (depth + 1) JMode.members (c2 :: r2)
          else if c = 91 then
            if maxNestingDepth ≤ depth then none
            else
              match jsonSkipSpace rest with
              | [] => none
              | c2 :: r2 =>
                  if c2 = 93 then some (JKind.array, r2)
                  else jsonSkip fuel (depth + 1) JMode.elements (c2 :: r2)
          else if s.take 4 = ascii "true" then some (JKind.bool, s.drop 4)
          else if s.take 5 = ascii "false" then some (JKind.bool, s.drop 5)
          else if s.take 4 = ascii "null" then some (JKind.null, s.drop 4)
          else
            match jsonNumber s with
            | some r => some (JKind.number, r)
            | none => none
  | fuel + 1, depth, JMode.elements, s =>
      match jsonSkip fuel depth JMode.value s with
      | none => none
      | some (_, r) =>
          match jsonSkipSpace r with
          | [] => none
          | c :: r2 =>
              if c = 93 then some (JKind.array, r2)
              else if c = 44 then jsonSkip fuel depth JMode.elements (jsonSkipSpace r2)
              else none
  | fuel + 1, depth, JMode.members, s =>
      match jsonStringLit s with
      | none => none
      | some (_, r1) =>
          match jsonSkipSpace r1 with
          | [] => none
          | c :: r2 =>
              if c = 58 then
                match jsonSkip fuel depth JMode.value (jsonSkipSpace r2) with
                | none => none
                | some (_, r3) =>
                    match jsonSkipSpace r3 with
                    | [] => none
                    | c3 :: r4 =>
                        if c3 = 125 then some (JKind.object, r4)
                        else if c3 = 44 then jsonSkip fuel depth JMode.members (jsonSkipSpace r4)
                        else none
              else none

/-- The value of a member of the top-level object, as far as a struct of
string fields can tell values apart: a string with its text, null, or a value
of another kind. -/
inductive JValue where
  | str (s : Bytes)
  | null
  | other (kind : JKind)
  deriving DecidableEq, Repr

/-- The value of a member of the top-level object: a string literal is
decoded, anything else scanned, with that one object open. -/
def jsonMemberValue (fuel : Nat) (s : Bytes) : Option (JValue × Bytes) :=
  match s with
  | [] => none
  | c :: rest =>
      if c = 34 then
        match jsonStringBody 0 0 rest with
        | some (v, r) => some (JValue.str v, r)
        | none => none
      else
        match jsonSkip fuel 1 JMode.value (c :: rest) with
        | some (JKind.null, r) => some (JValue.null, r)
        | some (k, r) => some (JValue.other k, r)
        | none => none

/-- One member `"key" : value`. -/
def jsonMember (fuel : Nat) (s : Bytes) : Option ((Bytes × JValue) × Bytes) :=
  match jsonStringLit s with
  | none => none
  | some (k, r1) =>
      match jsonSkipSpace r1 with
      | [] => none
      | c :: r2 =>
          if c = 58 then
            match jsonMemberValue fuel (jsonSkipSpace r2) with
            | none => none
            | some (v, r3) => some ((k, v), r3)
          else none

/-- The members of an object up to and including the closing brace; `count`
bounds their number and `fuel` is that of the scanner. -/
def jsonMemberList (fuel : Nat) : Nat → Bytes → Option (List (Bytes × JValue) × Bytes)
  | 0, _ => none
  | count + 1, s =>
      match jsonMember fuel s with
      | none => none
      | some (m, r) =>
          match jsonSkipSpace r with
          | [] => none
          | c :: r2 =>
              if c = 125 then some ([m], r2)
              else if c = 44 then
                match jsonMemberList fuel count (jsonSkipSpace r2) with
                | none => none
                | some (ms, r3) => some (m :: ms, r3)
              else none

/-- A whole JSON document, as a struct sees it: an object with its members
in order, null, or a value of another kind. -/
inductive JDocument where
  | object (members : List (Bytes × JValue))
  | null
  | other (kind : JKind)
  deriving DecidableEq, Repr

/-- Function `checkValid` and the top level of the decoder: the document, or
`none` on a syntax error (also for input after the top-level value). -/
def jsonDocument (data : Bytes) : Option JDocument :=
  match jsonSkipSpace data with
  | [] => none
  | c :: r =>
      if c = 123 then
        match jsonSkipSpace r with
        | [] => none
        | c2 :: r2 =>
            if c2 = 125 then
              (if jsonSkipSpace r2 = [] then some (JDocument.object []) else none)
            else
              match jsonMemberList (2 * data.length + 2) data.length (c2 :: r2) with
              | none => none
              | some (ms, r3) =>
                  if jsonSkipSpace r3 = [] then some (JDocument.object ms) else none
      else
        match jsonSkip (2 * data.length + 2) 0 JMode.value (c :: r) with
        | none => none
        | some (k, r2) =>
            if jsonSkipSpace r2 = [] then
              some (if k = JKind.null then JDocument.null else JDocument.other k)
            else none

/-- A byte with bit `0x20` cleared (`b & caseMask`): a letter in upper case. -/
def caseMasked (b : Byte) : Byte := if b.val / 32 % 2 = 1 then b - 32 else b

/-- Function `equalFoldRight` of encoding/json (`s` is the field name): ASCII
letters match in either case, and `s` and `k` also match the long s U+017F
and the Kelvin sign U+212A. -/
def equalFoldRight : Bytes → Bytes → Bool
  | [], t => t.isEmpty
  | sb :: s, t =>
      match t with
      | [] => false
      | tb :: t1 =>
          if tb < 128 then
            if sb = tb then equalFoldRight s t1
            else if 65 ≤ caseMasked sb ∧ caseMasked sb ≤ 90 ∧ caseMasked sb = caseMasked tb then
              equalFoldRight s t1
            else false
          else if sb = 115 ∨ sb = 83 then
            (if t.take 2 = [0xC5, 0xBF] then equalFoldRight s (t.drop 2) else false)
          else if sb = 107 ∨ sb = 75 then
            (if t.take 3 = [0xE2, 0x84, 0xAA] then equalFoldRight s (t.drop 3) else false)
          else false

/-- Function `simpleLetterEqualFold` of encoding/json. -/
def simpleLetterEqualFold (s t : Bytes) : Bool :=
  s.length == t.length && s.map caseMasked == t.map caseMasked

/-- The comparison `foldFunc` selects for a field name made of ASCII letters
(all names of this repository are): `equalFoldRight` when the name has a `k`
or an `s`, `simpleLetterEqualFold` otherwise. -/
def jsonFoldEq (name key : Bytes) : Bool :=
  if name.any (fun b => caseMasked b = 75 ∨ caseMasked b = 83) then equalFoldRight name key
  else simpleLetterEqualFold name key

/-- The fields of `transactionJSON` and `signedTransactionJSON`. -/
inductive JField where
  | salt
  | expirationTimeSeconds
  | gasPrice
  | signerAddress
  | data
  | signature
  deriving DecidableEq, Repr

/-- The JSON name of a field, from its struct tag. -/
def JField.name : JField → String
  | JField.salt => "salt"
  | JField.expirationTimeSeconds => "expirationTimeSeconds"
  | JField.gasPrice => "gasPrice"
  | JField.signerAddress => "signerAddress"
  | JField.data => "data"
  | JField.signature => "signature"

/-- The field a key selects: the field of that exact name, or else the first
field whose name equals the key under `foldFunc`; `none` for an unknown key. -/
def jsonFieldOf (fields : List JField) (key : Bytes) : Option JField :=
  match fields.find? (fun f => key == ascii f.name) with
  | some f => some f
  | none => fields.find? (fun f => jsonFoldEq (ascii f.name) key)

/-- The text of an `UnmarshalTypeError` for a field of type string. -/
def jsonTypeError (kind : JKind) (structName : String) (field : JField) : String :=
  "json: cannot unmarshal " ++ kind.name ++ " into Go struct field " ++ structName ++ "."
    ++ field.name ++ " of type string"

/-- Type `transactionJSON` of transaction.go. -/
structure transactionJSON where
  Salt : Bytes
  ExpirationTimeSeconds : Bytes
  GasPrice : Bytes
  SignerAddress : Bytes
  Data : Bytes
  deriving DecidableEq, Repr

/-- Type `signedTransactionJSON` of transaction.go: the embedded
`transactionJSON` and the signature. -/
structure signedTransactionJSON where
  embedded : transactionJSON
  Signature : Bytes
  deriving DecidableEq, Repr

/-- A string stored into a field of `transactionJSON`. -/
def transactionJSON.setField (raw : transactionJSON) (field : JField) (v : Bytes) :
    transactionJSON :=
  match field with
  | JField.salt => { raw with Salt := v }
  | JField.expirationTimeSeconds => { raw with ExpirationTimeSeconds := v }
  | JField.gasPrice => { raw with GasPrice := v }
  | JField.signerAddress => { raw with SignerAddress := v }
  | JField.data => { raw with Data := v }
  | JField.signature => raw

/-- A string stored into a field of `signedTransactionJSON`. -/
def signedTransactionJSON.setField (raw : signedTransactionJSON) (field : JField) (v : Bytes) :
    signedTransactionJSON :=
  match field with
  | JField.signature => { raw with Signature := v }
  | f => { raw with embedded := raw.embedded.setField f v }

/-- One member of the object decoded into a struct of string fields, the
struct being paired with the first error saved so far: a member with an
unknown key is skipped, a string is stored, null leaves the field as it is,
and any other value saves an `UnmarshalTypeError` unless one is saved already. -/
def jsonDecodeMember {α : Type} (structName : String) (fields : List JField)
    (set : α → JField → Bytes → α) (st : α × Option String) (kv : Bytes × JValue) :
    α × Option String :=
  match jsonFieldOf fields kv.1 with
  | none => st
  | some f =>
      match kv.2 with
      | JValue.str s => (set st.1 f s, st.2)
      | JValue.null => st
      | JValue.other k =>
          (st.1, match st.2 with
            | some e => some e
            | none => some (jsonTypeError k structName f))

/-- Function `json.Unmarshal(data, v)` for `v` a zero struct of string fields:
a syntax error, or the struct after all members have been decoded in order
and the first type error if there was one; the document null leaves the
struct as it is and any other document that is not an object is a type
error. The text of a `SyntaxError` names the offending byte and its place;
it is not modelled, every syntax error has the one text below. -/
def jsonUnmarshalStruct {α : Type} (structName : String) (fields : List JField)
    (set : α → JField → Bytes → α) (zero : α) (data : Bytes) : Except String α :=
  match jsonDocument data with
  | none => Except.error "json: syntax error"
  | some JDocument.null => Except.ok zero
  | some (JDocument.other k) =>
      Except.error ("json: cannot unmarshal " ++ k.name ++ " into Go value of type zrx."
        ++ structName)
  | some (JDocument.object ms) =>
      match ms.foldl (jsonDecodeMember structName fields set) (zero, none) with
      | (_, some e) => Except.error e
      | (v, none) => Except.ok v

/-- Function `json.Unmarshal(data, &raw)` for a zero `transactionJSON`. -/
def jsonUnmarshalTransaction (data : Bytes) : Except String transactionJSON :=
  jsonUnmarshalStruct "transactionJSON"
    [JField.salt, JField.expirationTimeSeconds, JField.gasPrice, JField.signerAddress,
      JField.data]
    transactionJSON.setField ⟨[], [], [], [], []⟩ data

/-- Function `json.Unmarshal(data, &rawStx)` for a zero `signedTransactionJSON`. -/
def jsonUnmarshalSigned (data : Bytes) : Except String signedTransactionJSON :=
  jsonUnmarshalStruct "signedTransactionJSON"
    [JField.salt, JField.expirationTimeSeconds, JField.gasPrice, JField.signerAddress,
      JField.data, JField.signature]
    signedTransactionJSON.setField ⟨⟨[], [], [], [], []⟩, []⟩ data

/-! ## transaction.go: the JSON codec -/

/-- How a method returning `error` ends: with nil, with an error, or in a
run-time panic. -/
inductive Outcome where
  | ok
  | error (msg : String)
  | panic (msg : String)
  deriving DecidableEq, Repr

/-- Method `Transaction.MarshalJSON`; the error it returns is always nil. -/
def Transaction.MarshalJSON (keccak : Bytes → Hash) (tx : Transaction) : Bytes :=
  jsonMarshal
    [ (ascii "salt", bigString tx.Salt),
      (ascii "expirationTimeSeconds", bigString tx.ExpirationTimeSeconds),
      (ascii "gasPrice", bigString tx.GasPrice),
      (ascii "signerAddress", ToLower (Address.Hex keccak tx.SignerAddress)),
      (ascii "data", hexutilEncode tx.Data) ]

/-- Method `Transaction.fromJSON`: the returned error and the transaction
afterwards. The slice expression `ztx.Data[:2]` panics on a string shorter
than two bytes, after the first four fields have been assigned. -/
def Transaction.fromJSON (tx : Transaction) (ztx : transactionJSON) : Outcome × Transaction :=
  match SetString ztx.Salt with
  | none => (Outcome.error "unable to unmarshal value for \"salt\"", tx)
  | some salt =>
    match SetString ztx.ExpirationTimeSeconds with
    | none => (Outcome.error "unable to unmarshal value for \"expirationTimeSeconds\"", tx)
    | some expirationTimeSeconds =>
      match SetString ztx.GasPrice with
      | none => (Outcome.error "unable to unmarshal value for \"gasPrice\"", tx)
      | some gasPrice =>
        let tx1 : Transaction :=
          { tx with
            Salt := some salt
            ExpirationTimeSeconds := some expirationTimeSeconds
            GasPrice := some gasPrice
            SignerAddress := HexToAddress ztx.SignerAddress }
        if ztx.Data.length < 2 then
          (Outcome.panic "runtime error: slice bounds out of range", tx1)
        else
          let tx2 : Transaction :=
            if ztx.Data.take 2 = ascii "0x" then { tx1 with Data := Hex2Bytes (ztx.Data.drop 2) }
            else { tx1 with Data := Hex2Bytes ztx.Data }
          match hexutilDecode ztx.Data with
          | (_, some err) => (Outcome.error err, tx2)
          | (data, none) => (Outcome.ok, { tx2 with Data := data })

/-- Method `Transaction.UnmarshalJSON`, with the call
`json.Unmarshal(data, &raw)` as the parameter `unmarshal`. -/
def Transaction.UnmarshalJSONWith (unmarshal : Bytes → Except String transactionJSON)
    (tx : Transaction) (data : Bytes) : Outcome × Transaction :=
  match unmarshal data with
  | Except.error err => (Outcome.error err, tx)
  | Except.ok raw => tx.fromJSON raw

/-- Method `Transaction.UnmarshalJSON`, over the model of `json.Unmarshal`. -/
def Transaction.UnmarshalJSON (tx : Transaction) (data : Bytes) : Outcome × Transaction :=
  tx.UnmarshalJSONWith jsonUnmarshalTransaction data

/-- Type `SignedTransaction` of transaction.go. -/
structure SignedTransaction extends Transaction where
  Signature : Bytes
  deriving DecidableEq, Repr

/-- Method `SignedTransaction.MarshalJSON`. -/
def SignedTransaction.MarshalJSON (keccak : Bytes → Hash) (stx : SignedTransaction) : Bytes :=
  jsonMarshal
    [ (ascii "salt", bigString stx.Salt),
      (ascii "expirationTimeSeconds", bigString stx.ExpirationTimeSeconds),
      (ascii "gasPrice", bigString stx.GasPrice),
      (ascii "signerAddress", ToLower (Address.Hex keccak stx.SignerAddress)),
      (ascii "data", hexutilEncode stx.Data),
      (ascii "signature", hexutilEncode stx.Signature) ]

/-- Method `SignedTransaction.UnmarshalJSON`, with the calls
`json.Unmarshal(data, &raw)` and `json.Unmarshal(data, &rawStx)` as the
parameters `unmarshal` and `unmarshalSigned`. -/
def SignedTransaction.UnmarshalJSONWith (unmarshal : Bytes → Except String transactionJSON)
    (unmarshalSigned : Bytes → Except String signedTransactionJSON)
    (stx : SignedTransaction) (data : Bytes) : Outcome × SignedTransaction :=
  match unmarshal data with
  | Except.error err => (Outcome.error err, stx)
  | Except.ok raw =>
    match unmarshalSigned data with
    | Except.error err => (Outcome.error err, stx)
    | Except.ok rawStx =>
      match stx.toTransaction.fromJSON raw with
      | (Outcome.ok, tx1) =>
          match hexutilDecode rawStx.Signature with
          | (_, some err) => (Outcome.error err, SignedTransaction.mk tx1 stx.Signature)
          | (sig, none) => (Outcome.ok, SignedTransaction.mk tx1 sig)
      | (failure, tx1) => (failure, SignedTransaction.mk tx1 stx.Signature)

/-- Method `SignedTransaction.UnmarshalJSON`, over the model of `json.Unmarshal`. -/
def SignedTransaction.UnmarshalJSON (stx : SignedTransaction) (data : Bytes) :
    Outcome × SignedTransaction :=
  stx.UnmarshalJSONWith jsonUnmarshalTransaction jsonUnmarshalSigned data

/-- What a caller can do to a transaction between two hash computations
without resetting the cache: assign any of the five exported fields, or call
`ComputeHashForChainID` with any chain id. -/
inductive TxOp where
  | setSalt (v : Option Int)
  | setExpirationTimeSeconds (v : Option Int)
  | setGasPrice (v : Option Int)
  | setSignerAddress (a : Address)
  | setData (d : Bytes)
  | computeHash (chainID : Int)

/-- The transaction after one operation. -/
def TxOp.apply (env : Env) (tx : Transaction) : TxOp → Transaction
  | TxOp.setSalt v => { tx with Salt := v }
  | TxOp.setExpirationTimeSeconds v => { tx with ExpirationTimeSeconds := v }
  | TxOp.setGasPrice v => { tx with GasPrice := v }
  | TxOp.setSignerAddress a => { tx with SignerAddress := a }
  | TxOp.setData d => { tx with Data := d }
  | TxOp.computeHash c => (tx.ComputeHashForChainID env c).2

/-- The transaction after a sequence of operations, first to last. -/
def runOps (env : Env) (tx : Transaction) (ops : List TxOp) : Transaction :=
  ops.foldl (TxOp.apply env) tx

/-- A transaction that has never been hashed, with the given five fields. -/
def Transaction.fresh (tx : Transaction) : Transaction :=
  { Salt := tx.Salt, ExpirationTimeSeconds := tx.ExpirationTimeSeconds,
    GasPrice := tx.GasPrice, SignerAddress := tx.SignerAddress, Data := tx.Data,
    hash := none }

/-- The exchange address of 0x v3 on chain 1, as text. -/
def mainnetExchange : Bytes := ascii "0x61935cbdd02287b511119ddb11aeb42f1593b7ef"

/-- An environment on which the definitions can be evaluated: the registry
knows chain ids 1 and 1337 only; Keccak-256 is replaced by a stand-in that
keeps the last 32 bytes, and the struct hash by one that fails on a `<nil>`
number and otherwise returns the length of the message in the last byte. -/
def standInEnv : Env :=
  { GetContractAddressesForChainID := fun c =>
      if c = 1 ∨ c = 1337 then
        Except.ok { Exchange := HexToAddress mainnetExchange, DevUtils := Address.zero }
      else Except.error "invalid chain id"
    Keccak256 := BytesToHash
    HashStruct := fun _ _ m =>
      if m.any (fun e => e.2 = TypedValue.str (ascii "<nil>")) then
        Except.error "provided data does not match type uint256"
      else Except.ok (BytesToHash [Fin.ofNat m.length]) }

/-- A transaction used to evaluate the definitions. -/
def sampleTx : Transaction :=
  { Salt := some 1234567890, ExpirationTimeSeconds := some 1700000000, GasPrice := some 1,
    SignerAddress := HexToAddress (ascii "0xc02aaa39b223fe8d0a0e5c4f27ead9083c756cc2"),
    Data := [0xde, 0xad, 0xbe, 0xef], hash := none }

/-! ## asset_data.go -/

def AssetDataLength : Nat := 36

def AssetDataPrefixLength : Nat := 4

/-- Constant `zeroex.ERC20AssetDataID` of 0x-mesh, the ERC-20 asset-proxy id. -/
def ERC20AssetDataID : Bytes := ascii "f47261b0"

/-- The loop `for i := range assetData` of `EncodeERC20AssetData`, from index `i`
on: positions below `AssetDataPrefixLength` receive `prefixBytes[i]`. The
prefix has four bytes, so the index is always in range. -/
def writePrefixFrom (prefixBytes : Bytes) : Nat → Bytes → Bytes
  | _, [] => []
  | i, b :: rest =>
      (if i < AssetDataPrefixLength then prefixBytes.getD i 0 else b)
        :: writePrefixFrom prefixBytes (i + 1) rest

/-- Function `EncodeERC20AssetData` of asset_data.go. -/
def EncodeERC20AssetData (address : Address) : Bytes :=
  let prefixBytes := (hexDecodeString ERC20AssetDataID).1
  let assetData := LeftPadBytes address.val AssetDataLength
  writePrefixFrom prefixBytes 0 assetData

/-! ## signature.go -/

/-- Type `signer.ECSignature` of 0x-mesh: `V byte`, `R` and `S` of type `common.Hash`. -/
structure ECSignature where
  V : Byte
  R : Hash
  S : Hash
  deriving DecidableEq, Repr

def ECSignatureLength : Nat := 66

/-- Constant `zeroex.EthSignSignature` of 0x-mesh: the fourth value of the
`SignatureType` enumeration (Illegal, Invalid, EIP712, EthSign, ...). -/
def EthSignSignature : Byte := 3

/-- The statement `copy(dst[lo:hi], src)`: as many bytes as both the window
and the source hold are written from index `lo` on. -/
def copyInto (dst : Bytes) (lo hi : Nat) (src : Bytes) : Bytes :=
  dst.take lo ++ src.take (min (hi - lo) src.length)
    ++ dst.drop (lo + min (hi - lo) src.length)

/-- Function `ECSignatureToBytes` of signature.go. -/
def ECSignatureToBytes (ecSignature : ECSignature) : Bytes :=
  let signature0 := List.replicate ECSignatureLength (0 : Byte)
  let signature1 := signature0.set 0 ecSignature.V
  let signature2 := copyInto signature1 1 33 ecSignature.R.val
  let signature3 := copyInto signature2 33 65 ecSignature.S.val
  signature3.set 65 EthSignSignature

/-! ## salt.go -/

/-- How a function returning `(value, error)` ends: with a value, with an
error, or in a run-time panic. -/
inductive Returned (α : Type) where
  | value (a : α)
  | error (msg : String)
  | panic (msg : String)
  deriving DecidableEq, Repr

/-- The number of binary digits of `n`; `fuel` bounds their number. -/
def bitLenAux : Nat → Nat → Nat
  | 0, _ => 0
  | fuel + 1, n => if n = 0 then 0 else bitLenAux fuel (n / 2) + 1

/-- Method `(*big.Int).BitLen` on a natural number. -/
def bitLen (n : Nat) : Nat := bitLenAux n n

/-- Method `(*big.Int).SetBytes`: the big-endian value of the bytes. -/
def SetBytes (b : Bytes) : Nat := b.foldl (fun acc x => acc * 256 + x.val) 0

/-- The first byte after `bytes[0] &= uint8(int(1<<b) - 1)`: its low `b` bits. -/
def clearTopBits (b : Nat) (bytes : Bytes) : Bytes :=
  match bytes with
  | [] => []
  | x :: rest => (Fin.ofNat (x.val % 2 ^ b) : Byte) :: rest

/-- The loop of `rand.Int`: `reader i` is what the `i`-th call of
`io.ReadFull(rand, bytes)` yields, the bytes read or the error. A candidate
not below `max` is thrown away and the next one is read; `fuel` bounds the
number of rounds, and `none` means that more rounds are needed. -/
def randIntLoop (reader : Nat → Except String Bytes) (max : Nat) (b : Nat) :
    Nat → Nat → Option (Returned Int)
  | 0, _ => none
  | fuel + 1, i =>
      match reader i with
      | Except.error err => some (Returned.error err)
      | Except.ok bytes =>
          let n := SetBytes (clearTopBits b bytes)
          if n < max then some (Returned.value (n : Int))
          else randIntLoop reader max b fuel (i + 1)

/-- Function `rand.Int(rand.Reader, max)` of crypto/rand: a value in
`[0, max)` by rejection sampling; it panics when `max` is not positive. -/
def randInt (reader : Nat → Except String Bytes) (max : Int) (fuel : Nat) :
    Option (Returned Int) :=
  if max ≤ 0 then some (Returned.panic "crypto/rand: argument to Int is <= 0")
  else
    let bits := bitLen (max - 1).toNat
    if bits = 0 then some (Returned.value 0)
    else
      let b := if bits % 8 = 0 then 8 else bits % 8
      randIntLoop reader max.toNat b fuel 0

/-- Function `GeneratePseudoRandomSalt` of salt.go. -/
def GeneratePseudoRandomSalt (reader : Nat → Except String Bytes) (fuel : Nat) :
    Option (Returned Int) :=
  let u265p1 : Int := 2 ^ 256
  let max := u265p1 - 1
  randInt reader max fuel

/-! ## transaction.go: signing -/

/-- Function `SignTransaction` of transaction.go: the returned pair, `error`
standing for `(nil, err)`, and the transaction afterwards (its hash cache may
have been filled). `signer` is the method `EthSign` of the supplied signer. -/
def SignTransaction (env : Env) (signer : Bytes → Address → Except String ECSignature)
    (tx : Transaction) (chainID : Int) : Except String SignedTransaction × Transaction :=
  match tx.ComputeHashForChainID env chainID with
  | ((_, some err), tx1) => (Except.error err, tx1)
  | ((hash, none), tx1) =>
      match signer hash.val tx1.SignerAddress with
      | Except.error err => (Except.error err, tx1)
      | Except.ok ecSignature =>
          (Except.ok (SignedTransaction.mk tx1 (ECSignatureToBytes ecSignature)), tx1)

/-- A reader whose first two candidates are `2^256 - 1` and whose third is 5. -/
def sampleReader : Nat → Except String Bytes := fun i =>
  if i < 2 then Except.ok (List.replicate 32 255)
  else Except.ok (List.replicate 31 0 ++ [5])

/-- A signature used to evaluate the definitions. -/
def sampleSignature : ECSignature :=
  { V := 27, R := BytesToHash [1, 2, 3], S := BytesToHash [4, 5, 6] }

/-! ## helpers.go -/

/-- Variable `NULL_ADDRESS` of helpers.go. -/
def NULL_ADDRESS : Address := Address.zero

/-- Type `zeroex.Order` of 0x-mesh. -/
structure Order where
  ChainID : Option Int
  ExchangeAddress : Address
  MakerAddress : Address
  MakerAssetData : Bytes
  MakerFeeAssetData : Bytes
  MakerAssetAmount : Option Int
  MakerFee : Option Int
  TakerAddress : Address
  TakerAssetData : Bytes
  TakerFeeAssetData : Bytes
  TakerAssetAmount : Option Int
  TakerFee : Option Int
  SenderAddress : Address
  FeeRecipientAddress : Address
  ExpirationTimeSeconds : Option Int
  Salt : Option Int
  hash : Option Hash
  deriving DecidableEq, Repr

/-- Type `zeroex.SignedOrder` of 0x-mesh. -/
structure SignedOrder extends Order where
  Signature : Bytes
  deriving DecidableEq, Repr

/-- Type `ordervalidator.RejectedOrderStatus`. -/
structure RejectedOrderStatus where
  Code : String
  Message : String
  deriving DecidableEq, Repr

/-- Type `ordervalidator.RejectedOrderInfo`, the fields the repository reads. -/
structure RejectedOrderInfo where
  SignedOrder : SignedOrder
  Status : RejectedOrderStatus
  deriving DecidableEq, Repr

/-- Type `ordervalidator.AcceptedOrderInfo`. -/
structure AcceptedOrderInfo where
  SignedOrder : SignedOrder
  FillableTakerAssetAmount : Option Int
  IsNew : Bool
  deriving DecidableEq, Repr

/-- Type `ordervalidator.ValidationResults`. -/
structure ValidationResults where
  Accepted : List AcceptedOrderInfo
  Rejected : List RejectedOrderInfo
  deriving DecidableEq, Repr

/-- The result of `DevUtils.GetBalanceAndAssetProxyAllowance`; the contract
binding always sets both numbers. -/
structure BalanceInfo where
  Balance : Int
  Allowance : Int
  deriving DecidableEq, Repr

/-- Type `ZeroExHelper` of helpers.go. The order validator and the DevUtils
contract are external: `BatchValidate` is the validator called with
`validateOnchain = true` at the latest block, and
`GetBalanceAndAssetProxyAllowance` is the contract read. -/
structure ZeroExHelper where
  ChainID : Option Int
  ContractAddresses : ContractAddresses
  BatchValidate : List SignedOrder → ValidationResults
  GetBalanceAndAssetProxyAllowance : Address → Bytes → Except String BalanceInfo

/-- A Go string as text, for error messages. -/
def goString (b : Bytes) : String := String.mk (b.map (fun x => Char.ofNat x.val))

set_option linter.unusedVariables false in
/-- Method `ZeroExHelper.ValidateFill`: the returned error, and the
balance/allowance queries made, each with its owner address and asset data.
Comparing a nil `TakerAssetAmount` panics. The argument `takerAssetAmount`
is not read anywhere in the body. -/
def ZeroExHelper.ValidateFill (zh : ZeroExHelper) (order : SignedOrder)
    (takerAssetAmount : Option Int) : Outcome × List (Address × Bytes) :=
  let orders := [order]
  let rawValidationResults := zh.BatchValidate orders
  match rawValidationResults.Rejected with
  | [rejected] => (Outcome.error rejected.Status.Message, [])
  | _ =>
    if rawValidationResults.Accepted.length ≠ 1 then
      (Outcome.error "unable to validate order", [])
    else if order.TakerAddress = NULL_ADDRESS then (Outcome.ok, [])
    else
      let queries := [(order.TakerAddress, order.TakerAssetData)]
      match zh.GetBalanceAndAssetProxyAllowance order.TakerAddress order.TakerAssetData with
      | Except.error err => (Outcome.error err, queries)
      | Except.ok takerBalanceInfo =>
        match order.TakerAssetAmount with
        | none =>
            (Outcome.panic "runtime error: invalid memory address or nil pointer dereference",
              queries)
        | some want =>
          if want > takerBalanceInfo.Allowance then
            (Outcome.error
              ("taker has insufficient allowance for trade: (has: "
                ++ goString (bigString (some takerBalanceInfo.Allowance)) ++ "), (want: "
                ++ goString (bigString (some want)) ++ ")"), queries)
          else if want > takerBalanceInfo.Balance then
            (Outcome.error
              ("taker has insufficient balance for trade: (has: "
                ++ goString (bigString (some takerBalanceInfo.Balance)) ++ "), (want: "
                ++ goString (bigString (some want)) ++ ")"), queries)
          else (Outcome.ok, queries)

/-- Method `ZeroExHelper.CreateOrder`; `reader` and `fuel` are those of the
salt generation, and `none` means that it needs more rounds. -/
def ZeroExHelper.CreateOrder (zh : ZeroExHelper) (reader : Nat → Except String Bytes)
    (fuel : Nat) (maker taker sender feeRecipient makerAsset takerAsset : Address)
    (makerAmount takerAmount makerFee takerFee : Option Int)
    (makerFeeAsset takerFeeAsset : Address) (expirationTimeSeconds : Option Int) :
    Option (Returned Order) :=
  match GeneratePseudoRandomSalt reader fuel with
  | none => none
  | some (Returned.error err) => some (Returned.error err)
  | some (Returned.panic msg) => some (Returned.panic msg)
  | some (Returned.value salt) =>
      let makerFeeAssetData : Bytes :=
        if makerFeeAsset ≠ NULL_ADDRESS then EncodeERC20AssetData makerFeeAsset else []
      let takerFeeAssetData : Bytes :=
        if takerFeeAsset ≠ NULL_ADDRESS then EncodeERC20AssetData takerFeeAsset else []
      some (Returned.value
        { ChainID := zh.ChainID
          ExchangeAddress := zh.ContractAddresses.Exchange
          MakerAddress := maker
          MakerAssetData := EncodeERC20AssetData makerAsset
          MakerFeeAssetData := makerFeeAssetData
          MakerAssetAmount := makerAmount
          MakerFee := makerFee
          TakerAddress := taker
          TakerAssetData := EncodeERC20AssetData takerAsset
          TakerFeeAssetData := takerFeeAssetData
          TakerAssetAmount := takerAmount
          TakerFee := takerFee
          SenderAddress := sender
          FeeRecipientAddress := feeRecipient
          ExpirationTimeSeconds := expirationTimeSeconds
          Salt := some salt
          hash := none })

/-- An order used to evaluate the definitions: taker amount 100. -/
def sampleOrder : SignedOrder :=
  SignedOrder.mk
    { ChainID := some 1337, ExchangeAddress := HexToAddress mainnetExchange,
      MakerAddress := HexToAddress (ascii "0x01"), MakerAssetData := [],
      MakerFeeAssetData := [], MakerAssetAmount := some 50, MakerFee := some 0,
      TakerAddress := HexToAddress (ascii "0x02"), TakerAssetData := [7],
      TakerFeeAssetData := [], TakerAssetAmount := some 100, TakerFee := some 0,
      SenderAddress := Address.zero, FeeRecipientAddress := Address.zero,
      ExpirationTimeSeconds := some 1700000000, Salt := some 5, hash := none }
    []

/-- A helper whose validator accepts every order of the batch and whose
contract reports balance 100 and allowance 99 for every owner. -/
def sampleHelper : ZeroExHelper :=
  { ChainID := some 1337
    ContractAddresses := { Exchange := HexToAddress mainnetExchange, DevUtils := Address.zero }
    BatchValidate := fun orders =>
      { Accepted := orders.map (fun o => AcceptedOrderInfo.mk o o.TakerAssetAmount true)
        Rejected := [] }
    GetBalanceAndAssetProxyAllowance := fun _ _ => Except.ok { Balance := 100, Allowance := 99 } }

/-- A helper whose validator rejects every order of the batch. -/
def rejectingHelper : ZeroExHelper :=
  { sampleHelper with
    BatchValidate := fun orders =>
      { Accepted := []
        Rejected := orders.map (fun o =>
          RejectedOrderInfo.mk o { Code := "OrderExpired", Message := "order expired" }) } }


/-! ## Theorems -/

theorem writePrefixFrom_past (p : Bytes) (l : Bytes) :
    ∀ i, AssetDataPrefixLength ≤ i → writePrefixFrom p i l = l := by
  induction l with
  | nil => intro i _; rfl
  | cons b rest ih =>
      intro i hi
      have h1 : ¬ i < AssetDataPrefixLength := by omega
      simp only [writePrefixFrom, h1, if_false]
      rw [ih (i + 1) (by omega)]

theorem ERC20AssetDataID_decoded :
    hexDecodeString ERC20AssetDataID = ([0xf4, 0x72, 0x61, 0xb0], none) := by
  decide

/-- C1: for every 20-byte address, `EncodeERC20AssetData` is 36 bytes long,
starts with the selector f47261b0, has zeros in bytes 4..16 and the address in
bytes 16..36; the address of asset_data_test.go encodes to the expected text. -/
theorem C1_EncodeERC20AssetData_layout :
    (∀ A : Address,
      (EncodeERC20AssetData A).length = 36 ∧
      (EncodeERC20AssetData A).take 4 = [0xf4, 0x72, 0x61, 0xb0] ∧
      ((EncodeERC20AssetData A).drop 4).take 12 = List.replicate 12 0 ∧
      (EncodeERC20AssetData A).drop 16 = A.val) ∧
    hexutilEncode (EncodeERC20AssetData
        (HexToAddress (ascii "0xc02aaa39b223fe8d0a0e5c4f27ead9083c756cc2")))
      = ascii "0xf47261b0000000000000000000000000c02aaa39b223fe8d0a0e5c4f27ead9083c756cc2" := by
  constructor
  · rintro ⟨l, hl⟩
    have hpad : LeftPadBytes l AssetDataLength = List.replicate 16 0 ++ l := by
      simp [LeftPadBytes, AssetDataLength, hl]
    simp only [EncodeERC20AssetData, ERC20AssetDataID_decoded, hpad]
    have hrest : writePrefixFrom [0xf4, 0x72, 0x61, 0xb0] 4
        (List.replicate 12 0 ++ l) = List.replicate 12 0 ++ l :=
      writePrefixFrom_past _ _ 4 (by decide)
    have h16 : (List.replicate 16 (0 : Byte)) = 0 :: 0 :: 0 :: 0 :: List.replicate 12 0 := by
      decide
    rw [h16]
    simp only [List.cons_append, writePrefixFrom, Nat.zero_add, Nat.reduceAdd, hrest]
    simp [AssetDataPrefixLength, hl, writePrefixFrom_past _ l 16 (by decide)]
  · decide

/-! ### The transaction hash -/

theorem BytesToHash_val (h : Hash) : BytesToHash h.val = h := by
  obtain ⟨l, hl⟩ := h
  apply Subtype.ext
  simp [BytesToHash, hl]

theorem rawData_length (a b : Hash) : (rawData a.val b.val).length = 66 := by
  simp [rawData, a.property, b.property]

theorem ComputeHashForChainID_cached (env : Env) (tx : Transaction) (c : Int) (h : Hash)
    (hc : tx.hash = some h) : tx.ComputeHashForChainID env c = ((h, none), tx) := by
  simp [Transaction.ComputeHashForChainID, hc]

theorem TxOp_apply_hash (env : Env) (h : Hash) (op : TxOp) (tx : Transaction)
    (hc : tx.hash = some h) : (op.apply env tx).hash = some h := by
  cases op <;> simp [TxOp.apply, hc, ComputeHashForChainID_cached env tx _ h hc]

theorem runOps_hash (env : Env) (h : Hash) (ops : List TxOp) :
    ∀ tx : Transaction, tx.hash = some h → (runOps env tx ops).hash = some h := by
  induction ops with
  | nil => intro tx hc; exact hc
  | cons op rest ih =>
      intro tx hc
      exact ih (op.apply env tx) (TxOp_apply_hash env h op tx hc)

theorem ComputeHashForChainID_returned (env : Env) (tx tx1 : Transaction) (c : Int) (h : Hash)
    (hret : tx.ComputeHashForChainID env c = ((h, none), tx1)) : tx1.hash = some h := by
  unfold Transaction.ComputeHashForChainID at hret
  split at hret
  · rename_i h0 hc
    simp only [Prod.mk.injEq, and_true] at hret
    rw [← hret.2, hc, hret.1]
  · split at hret
    · simp at hret
    · simp only at hret
      split at hret
      · simp at hret
      · split at hret
        · simp at hret
        · simp only [Prod.mk.injEq, and_true] at hret
          rw [← hret.2, ← hret.1]

theorem ComputeHashForChainID_fields (env : Env) (tx : Transaction) (c : Int) :
    (tx.ComputeHashForChainID env c).2.fresh = tx.fresh := by
  unfold Transaction.ComputeHashForChainID
  split
  · rfl
  · split
    · rfl
    · simp only
      split
      · rfl
      · split <;> rfl

theorem ComputeHashForChainID_ok_or_same (env : Env) (tx : Transaction) (c : Int) :
    (tx.ComputeHashForChainID env c).1.2 = none ∨ (tx.ComputeHashForChainID env c).2 = tx := by
  unfold Transaction.ComputeHashForChainID
  split
  · exact Or.inl rfl
  · split
    · exact Or.inr rfl
    · simp only
      split
      · exact Or.inr rfl
      · split
        · exact Or.inr rfl
        · exact Or.inl rfl

/-- C2: with no cached hash, a registered chain id and both struct hashes
succeeding, `ComputeHashForChainID` returns, with no error, Keccak-256 of the
66 bytes 0x19, 0x01, domainSeparator, messageHash, where the domain is
"0x Protocol", "3.0.0", the chain id and the registered exchange address, and
the message is made of the five fields of the transaction; the hash is cached. -/
theorem C2_ComputeHashForChainID_value (env : Env) (tx : Transaction) (chainID : Int)
    (addrs : ContractAddresses) (domainSeparator messageHash : Hash)
    (hcache : tx.hash = none)
    (hreg : env.GetContractAddressesForChainID chainID = Except.ok addrs)
    (hdomain :
      env.HashStruct
        { Types := EIP712Types
          PrimaryType := "ZeroExTransaction"
          Domain :=
            { Name := ascii "0x Protocol", Version := ascii "3.0.0", ChainId := some chainID
              VerifyingContract := Address.Hex env.Keccak256 addrs.Exchange, Salt := [] }
          Message := tx.Map env }
        "EIP712Domain"
        [ ("chainId", TypedValue.int chainID),
          ("name", TypedValue.str (ascii "0x Protocol")),
          ("version", TypedValue.str (ascii "3.0.0")),
          ("verifyingContract", TypedValue.str (Address.Hex env.Keccak256 addrs.Exchange)) ]
        = Except.ok domainSeparator)
    (hmessage :
      env.HashStruct
        { Types := EIP712Types
          PrimaryType := "ZeroExTransaction"
          Domain :=
            { Name := ascii "0x Protocol", Version := ascii "3.0.0", ChainId := some chainID
              VerifyingContract := Address.Hex env.Keccak256 addrs.Exchange, Salt := [] }
          Message := tx.Map env }
        "ZeroExTransaction"
        [ ("salt", TypedValue.str (bigString tx.Salt)),
          ("expirationTimeSeconds", TypedValue.str (bigString tx.ExpirationTimeSeconds)),
          ("gasPrice", TypedValue.str (bigString tx.GasPrice)),
          ("signerAddress", TypedValue.str (Address.Hex env.Keccak256 tx.SignerAddress)),
          ("data", TypedValue.bytes tx.Data) ]
        = Except.ok messageHash) :
    tx.ComputeHashForChainID env chainID =
      ((env.Keccak256 ([0x19, 0x01] ++ domainSeparator.val ++ messageHash.val), none),
       { tx with
          hash := some (env.Keccak256 ([0x19, 0x01] ++ domainSeparator.val ++ messageHash.val)) })
    ∧ ([0x19, 0x01] ++ domainSeparator.val ++ messageHash.val).length = 66 := by
  have hAddrLen : 0 < (Address.Hex env.Keccak256 addrs.Exchange).length := by
    have h2 : (ascii "0x").length = 2 := by decide
    simp only [Address.Hex, List.length_append, h2]
    omega
  have hName : 0 < (ascii "0x Protocol").length := by decide
  have hVersion : 0 < (ascii "3.0.0").length := by decide
  have hmapD : (tx.typedData env chainID addrs).Domain.Map =
      [ ("chainId", TypedValue.int chainID),
        ("name", TypedValue.str (ascii "0x Protocol")),
        ("version", TypedValue.str (ascii "3.0.0")),
        ("verifyingContract", TypedValue.str (Address.Hex env.Keccak256 addrs.Exchange)) ] := by
    simp only [Transaction.typedData, TypedDataDomain.Map, ZeroExProtocolName,
      ZeroExProtocolVersion, gt_iff_lt, hAddrLen, hName, hVersion, if_true]
    simp
  constructor
  · unfold Transaction.ComputeHashForChainID
    simp only [hcache, hreg, hmapD]
    simp only [Transaction.typedData, ZeroExProtocolName, ZeroExProtocolVersion,
      TypeZeroExTransaction, TypeEIP712Domain, Transaction.Map] at hdomain hmessage ⊢
    rw [hdomain]
    simp only []
    rw [hmessage]
    simp only [BytesToHash_val, rawData]
  · exact rawData_length domainSeparator messageHash

theorem C2_ComputeHashForChainID_value_witness :
    sampleTx.ComputeHashForChainID standInEnv 1337 =
      ((standInEnv.Keccak256
          ([0x19, 0x01] ++ (BytesToHash [4]).val ++ (BytesToHash [5]).val), none),
       { sampleTx with
          hash := some (standInEnv.Keccak256
            ([0x19, 0x01] ++ (BytesToHash [4]).val ++ (BytesToHash [5]).val)) })
    ∧ ([0x19, 0x01] ++ (BytesToHash [4]).val ++ (BytesToHash [5]).val).length = 66 :=
  C2_ComputeHashForChainID_value standInEnv sampleTx 1337
    { Exchange := HexToAddress mainnetExchange, DevUtils := Address.zero }
    (BytesToHash [4]) (BytesToHash [5]) rfl rfl rfl rfl

/-- C3: once `ComputeHashForChainID` has returned a hash with no error, every
later call returns that hash with no error and leaves the transaction as it
is, after any sequence of field assignments and further hash computations
and for any chain id, as long as `ResetHash` is not called. -/
theorem C3_cached_hash_takes_precedence (env : Env) (tx tx1 : Transaction) (c : Int) (h : Hash)
    (hret : tx.ComputeHashForChainID env c = ((h, none), tx1))
    (ops : List TxOp) (c2 : Int) :
    (runOps env tx1 ops).ComputeHashForChainID env c2 = ((h, none), runOps env tx1 ops) :=
  ComputeHashForChainID_cached env _ c2 h
    (runOps_hash env h ops tx1 (ComputeHashForChainID_returned env tx tx1 c h hret))

theorem C3_cached_hash_takes_precedence_witness :
    (runOps standInEnv
        { sampleTx with
          hash := some (standInEnv.Keccak256 (rawData (BytesToHash [4]).val (BytesToHash [5]).val)) }
        [TxOp.setSalt (some 7), TxOp.setData [], TxOp.computeHash 1, TxOp.setGasPrice none,
         TxOp.computeHash 5]).ComputeHashForChainID standInEnv 99 =
      ((standInEnv.Keccak256 (rawData (BytesToHash [4]).val (BytesToHash [5]).val), none),
       runOps standInEnv
        { sampleTx with
          hash := some (standInEnv.Keccak256 (rawData (BytesToHash [4]).val (BytesToHash [5]).val)) }
        [TxOp.setSalt (some 7), TxOp.setData [], TxOp.computeHash 1, TxOp.setGasPrice none,
         TxOp.computeHash 5]) :=
  C3_cached_hash_takes_precedence standInEnv sampleTx _ 1337 _ rfl _ 99

/-- C4: after `ResetHash` the next `ComputeHashForChainID` gives what a fresh
transaction with the same five fields gives for that chain id; and hashing a
fresh transaction, hashing it again, and hashing it again after a reset give
the same result all three times. -/
theorem C4_reset_recomputes_deterministically (env : Env) (tx : Transaction) (c : Int) :
    (tx.ResetHash.ComputeHashForChainID env c).1 = (tx.fresh.ComputeHashForChainID env c).1
    ∧ ((tx.fresh.ComputeHashForChainID env c).2.ComputeHashForChainID env c).1
        = (tx.fresh.ComputeHashForChainID env c).1
    ∧ ((tx.fresh.ComputeHashForChainID env c).2.ResetHash.ComputeHashForChainID env c).1
        = (tx.fresh.ComputeHashForChainID env c).1 := by
  refine ⟨rfl, ?_, ?_⟩
  · rcases ComputeHashForChainID_ok_or_same env tx.fresh c with hok | hsame
    · have hret : tx.fresh.ComputeHashForChainID env c
          = (((tx.fresh.ComputeHashForChainID env c).1.1, none),
              (tx.fresh.ComputeHashForChainID env c).2) := by
        apply Prod.ext
        · exact Prod.ext rfl hok
        · rfl
      have hcached := ComputeHashForChainID_returned env _ _ c _ hret
      rw [ComputeHashForChainID_cached env _ c _ hcached]
      exact Prod.ext rfl hok.symm
    · rw [hsame]
  · have hf := ComputeHashForChainID_fields env tx.fresh c
    have h1 : (tx.fresh.ComputeHashForChainID env c).2.ResetHash
        = (tx.fresh.ComputeHashForChainID env c).2.fresh := rfl
    rw [h1, hf]
    rfl

/-- C5: with no cached hash and a chain id the registry does not know,
`ComputeHashForChainID` returns the registry's error with the zero hash and
leaves the transaction, its empty cache included, as it was; a later call
with any chain id therefore behaves as it would have without the failed one. -/
theorem C5_unknown_chain_id (env : Env) (tx : Transaction) (c : Int) (err : String)
    (hcache : tx.hash = none)
    (hreg : env.GetContractAddressesForChainID c = Except.error err) :
    tx.ComputeHashForChainID env c = ((Hash.zero, some err), tx)
    ∧ (tx.ComputeHashForChainID env c).2.hash = none
    ∧ ∀ c2, (tx.ComputeHashForChainID env c).2.ComputeHashForChainID env c2
        = tx.ComputeHashForChainID env c2 := by
  have h : tx.ComputeHashForChainID env c = ((Hash.zero, some err), tx) := by
    simp [Transaction.ComputeHashForChainID, hcache, hreg]
  exact ⟨h, by rw [h]; exact hcache, fun c2 => by rw [h]⟩

theorem C5_unknown_chain_id_witness :
    sampleTx.ComputeHashForChainID standInEnv 5 = ((Hash.zero, some "invalid chain id"), sampleTx)
    ∧ (sampleTx.ComputeHashForChainID standInEnv 5).2.hash = none
    ∧ ∀ c2, (sampleTx.ComputeHashForChainID standInEnv 5).2.ComputeHashForChainID standInEnv c2
        = sampleTx.ComputeHashForChainID standInEnv c2 :=
  C5_unknown_chain_id standInEnv sampleTx 5 "invalid chain id" rfl rfl

/-! ### Hex text -/

theorem hextable_eq :
    hextable = [48, 49, 50, 51, 52, 53, 54, 55, 56, 57, 97, 98, 99, 100, 101, 102] := by
  decide

set_option maxRecDepth 100000 in
theorem fromHexChar_high : ∀ v : Byte, fromHexChar (hextable.getD (v.val / 16) 0) = some (v / 16) := by
  rw [hextable_eq]; decide

set_option maxRecDepth 100000 in
theorem fromHexChar_low : ∀ v : Byte, fromHexChar (hextable.getD (v.val % 16) 0) = some (v % 16) := by
  rw [hextable_eq]; decide

set_option maxRecDepth 100000 in
theorem byte_of_nibbles : ∀ v : Byte, v / 16 * 16 + v % 16 = v := by
  decide

theorem hexDecodeString_hexEncodeToString (l : Bytes) :
    hexDecodeString (hexEncodeToString l) = (l, none) := by
  induction l with
  | nil => rfl
  | cons v rest ih =>
      simp only [hexEncodeToString, hexDecodeString, fromHexChar_high, fromHexChar_low, ih,
        byte_of_nibbles]

theorem hexEncodeToString_length (l : Bytes) : (hexEncodeToString l).length = 2 * l.length := by
  induction l with
  | nil => rfl
  | cons v rest ih => simp only [hexEncodeToString, List.length_cons, ih]; omega

theorem hexEncodeToString_forall (P : Byte → Prop)
    (hP : ∀ v : Byte, P (hextable.getD (v.val / 16) 0) ∧ P (hextable.getD (v.val % 16) 0))
    (l : Bytes) : ∀ c ∈ hexEncodeToString l, P c := by
  induction l with
  | nil => intro c hc; simp [hexEncodeToString] at hc
  | cons v rest ih =>
      intro c hc
      simp only [hexEncodeToString, List.mem_cons] at hc
      rcases hc with h | h | h
      · rw [h]; exact (hP v).1
      · rw [h]; exact (hP v).2
      · exact ih c h
/-! ### Addresses as text -/

set_option maxRecDepth 100000 in
theorem toLowerByte_hex_digit : ∀ v : Byte,
    (toLowerByte (hextable.getD (v.val / 16) 0) = hextable.getD (v.val / 16) 0 ∧
      toLowerByte (hextable.getD (v.val / 16) 0 - 32) = hextable.getD (v.val / 16) 0 ∨
      ¬ hextable.getD (v.val / 16) 0 > 57 ∧
        toLowerByte (hextable.getD (v.val / 16) 0) = hextable.getD (v.val / 16) 0) ∧
    (toLowerByte (hextable.getD (v.val % 16) 0) = hextable.getD (v.val % 16) 0 ∧
      toLowerByte (hextable.getD (v.val % 16) 0 - 32) = hextable.getD (v.val % 16) 0 ∨
      ¬ hextable.getD (v.val % 16) 0 > 57 ∧
        toLowerByte (hextable.getD (v.val % 16) 0) = hextable.getD (v.val % 16) 0) := by
  rw [hextable_eq]; decide

theorem ToLower_checksumFrom (hash : Bytes) (l : Bytes) :
    ∀ i, (∀ c ∈ l, toLowerByte c = c ∧ toLowerByte (c - 32) = c ∨
            ¬ c > 57 ∧ toLowerByte c = c) →
      ToLower (checksumFrom hash i l) = l := by
  induction l with
  | nil => intro i _; rfl
  | cons c rest ih =>
      intro i h
      have hc := h c (List.mem_cons_self c rest)
      have hrest := ih (i + 1) (fun d hd => h d (List.mem_cons_of_mem c hd))
      simp only [ToLower] at hrest ⊢
      have key : ∀ nibble : Byte,
          toLowerByte (if c > 57 ∧ nibble > 7 then c - 32 else c) = c := by
        intro nibble
        by_cases hcond : c > 57 ∧ nibble > 7
        · rw [if_pos hcond]
          rcases hc with h1 | h1
          · exact h1.2
          · exact absurd hcond.1 h1.1
        · rw [if_neg hcond]
          rcases hc with h1 | h1
          · exact h1.1
          · exact h1.2
      simp only [checksumFrom, List.map_cons, hrest, List.cons.injEq, and_true]
      exact key _

theorem ToLower_Address_Hex (keccak : Bytes → Hash) (a : Address) :
    ToLower (Address.Hex keccak a) = ascii "0x" ++ hexEncodeToString a.val := by
  have h := ToLower_checksumFrom (keccak (hexEncodeToString a.val)).val
    (hexEncodeToString a.val) 0
    (hexEncodeToString_forall _ toLowerByte_hex_digit a.val)
  simp only [ToLower] at h ⊢
  simp only [Address.Hex, List.map_append, h]
  rfl

theorem has0x_0x (l : Bytes) : has0x (ascii "0x" ++ l) = true := rfl

theorem drop_0x (l : Bytes) : (ascii "0x" ++ l).drop 2 = l := rfl

theorem BytesToAddress_val (a : Address) : BytesToAddress a.val = a := by
  obtain ⟨l, hl⟩ := a
  apply Subtype.ext
  simp [BytesToAddress, hl]

theorem HexToAddress_lower_hex (a : Address) :
    HexToAddress (ascii "0x" ++ hexEncodeToString a.val) = a := by
  have hlen : ¬ (hexEncodeToString a.val).length % 2 = 1 := by
    rw [hexEncodeToString_length]; omega
  simp only [HexToAddress, FromHex, has0x_0x, drop_0x, if_true, if_neg hlen, Hex2Bytes,
    hexDecodeString_hexEncodeToString, BytesToAddress_val]

theorem hexutilDecode_hexutilEncode (b : Bytes) : hexutilDecode (hexutilEncode b) = (b, none) := by
  have hlen : ¬ (ascii "0x" ++ hexEncodeToString b).length = 0 := by
    have h2 : (ascii "0x").length = 2 := by decide
    simp only [List.length_append, h2]; omega
  simp only [hexutilDecode, hexutilEncode, hlen, if_false, has0x_0x, Bool.not_true, drop_0x,
    hexDecodeString_hexEncodeToString]
  simp

/-! ### Decimal text -/

theorem decimalDigits_lt (fuel : Nat) : ∀ n, ∀ d ∈ decimalDigits fuel n, d < 10 := by
  induction fuel with
  | zero => intro n d hd; simp [decimalDigits] at hd
  | succ f ih =>
      intro n d hd
      simp only [decimalDigits] at hd
      split at hd
      · simp only [List.mem_singleton] at hd; omega
      · simp only [List.mem_append, List.mem_singleton] at hd
        rcases hd with h | h
        · exact ih _ d h
        · omega

theorem decimalDigits_ne_nil (fuel : Nat) : ∀ n, n < fuel → decimalDigits fuel n ≠ [] := by
  induction fuel with
  | zero => intro n h; omega
  | succ f ih =>
      intro n _
      simp only [decimalDigits]
      split
      · simp
      · simp

theorem scanDigits_append (l1 l2 : Bytes) :
    ∀ acc, scanDigits (l1 ++ l2) acc =
      match scanDigits l1 acc with
      | none => none
      | some a => scanDigits l2 a := by
  induction l1 with
  | nil => intro acc; rfl
  | cons c rest ih =>
      intro acc
      simp only [List.cons_append, scanDigits]
      split
      · exact ih _
      · rfl

set_option maxRecDepth 100000 in
theorem digitByte_facts : ∀ d : Fin 10,
    (48 ≤ digitByte d.val ∧ digitByte d.val ≤ 57) ∧ (digitByte d.val).val - 48 = d.val := by
  decide

theorem scanDigits_digitByte (d : Nat) (hd : d < 10) (acc : Nat) :
    scanDigits [digitByte d] acc = some (acc * 10 + d) := by
  have h := digitByte_facts ⟨d, hd⟩
  simp only at h
  simp only [scanDigits, h.1, and_self, if_true, h.2]

theorem scanDigits_decimalDigits (fuel : Nat) :
    ∀ n, n < fuel → ∀ acc,
      scanDigits ((decimalDigits fuel n).map digitByte) acc = some (acc * 10 ^ (decimalDigits fuel n).length + n) := by
  induction fuel with
  | zero => intro n h; omega
  | succ f ih =>
      intro n hn acc
      simp only [decimalDigits]
      split
      · rename_i hlt
        simp only [List.map_cons, List.map_nil, List.length_singleton, pow_one]
        exact scanDigits_digitByte n hlt acc
      · rename_i hge
        have hdiv : n / 10 < f := by omega
        simp only [List.map_append, List.map_cons, List.map_nil, scanDigits_append,
          ih (n / 10) hdiv acc, List.length_append, List.length_singleton]
        rw [scanDigits_digitByte (n % 10) (by omega)]
        congr 1
        rw [pow_succ]
        have := Nat.div_add_mod n 10
        nlinarith [this]

theorem scanDigits_natString (n : Nat) : scanDigits (natString n) 0 = some n := by
  have h := scanDigits_decimalDigits (n + 1) n (by omega) 0
  simpa [natString] using h

theorem natString_ne_nil (n : Nat) : natString n ≠ [] := by
  simp only [natString, ne_eq, List.map_eq_nil_iff]
  exact decimalDigits_ne_nil (n + 1) n (by omega)

theorem natString_digits (n : Nat) : ∀ c ∈ natString n, 48 ≤ c ∧ c ≤ 57 := by
  intro c hc
  simp only [natString, List.mem_map] at hc
  obtain ⟨d, hd, rfl⟩ := hc
  exact (digitByte_facts ⟨d, decimalDigits_lt _ _ d hd⟩).1

theorem SetString_natString (n : Nat) : SetString (natString n) = some (n : Int) := by
  have hne := natString_ne_nil n
  have hdig := natString_digits n
  have hscan := scanDigits_natString n
  cases hs : natString n with
  | nil => exact absurd hs hne
  | cons c rest =>
      rw [hs] at hdig hscan
      have hc := hdig c (List.mem_cons_self c rest)
      have h45 : c ≠ 45 := by intro h; rw [h] at hc; revert hc; decide
      have h43 : c ≠ 43 := by intro h; rw [h] at hc; revert hc; decide
      simp only [SetString, List.head?_cons, Option.some.injEq, h45, h43, or_self, if_false,
        hscan]
      simp

theorem SetString_neg_natString (n : Nat) :
    SetString ((45 : Byte) :: natString n) = some (-(n : Int)) := by
  have hne := natString_ne_nil n
  have hscan := scanDigits_natString n
  simp only [SetString, List.head?_cons, true_or, if_true, List.tail_cons, hne, if_false, hscan]

/-- Parsing the text of a number gives the number back. -/
theorem SetString_bigString (x : Int) : SetString (bigString (some x)) = some x := by
  simp only [bigString]
  split
  · rename_i hneg
    rw [SetString_neg_natString]
    congr 1
    omega
  · rename_i hpos
    rw [SetString_natString]
    congr 1
    omega
theorem scanDigits_ne_none_iff (l : Bytes) :
    ∀ acc, scanDigits l acc ≠ none ↔ ∀ c ∈ l, 48 ≤ c ∧ c ≤ 57 := by
  induction l with
  | nil => intro acc; simp [scanDigits]
  | cons c rest ih =>
      intro acc
      simp only [scanDigits, List.mem_cons, forall_eq_or_imp]
      by_cases hc : 48 ≤ c ∧ c ≤ 57
      · simp only [hc, and_self, if_true, true_and]
        exact ih _
      · simp only [hc, if_false, ne_eq, not_true_eq_false, false_and]

/-- Method `SetString(s, 10)` accepts exactly an optional sign `-` or `+`
followed by one or more decimal digits. -/
theorem SetString_ne_none_iff (s : Bytes) :
    SetString s ≠ none ↔
      ∃ sign digits, s = sign ++ digits ∧ (sign = [] ∨ sign = [45] ∨ sign = [43]) ∧
        digits ≠ [] ∧ ∀ c ∈ digits, 48 ≤ c ∧ c ≤ 57 := by
  have key : ∀ body : Bytes, ∀ neg : Prop, ∀ _inst : Decidable neg,
      ((if body = [] then none
        else
          match scanDigits body 0 with
          | none => none
          | some n => some (if neg then -(n : Int) else (n : Int))) ≠ none) ↔
      (body ≠ [] ∧ ∀ c ∈ body, 48 ≤ c ∧ c ≤ 57) := by
    intro body neg _
    by_cases hb : body = []
    · simp [hb]
    · simp only [hb, if_false, ne_eq, not_false_eq_true, true_and]
      rw [← scanDigits_ne_none_iff body 0]
      cases scanDigits body 0 <;> simp
  cases s with
  | nil =>
      constructor
      · intro h; exact absurd rfl h
      · rintro ⟨sign, digits, hs, _, hne, _⟩
        have := List.append_eq_nil.mp hs.symm
        exact absurd this.2 hne
  | cons c rest =>
      by_cases hsign : c = 45 ∨ c = 43
      · have hbody : SetString (c :: rest) ≠ none ↔
            (rest ≠ [] ∧ ∀ d ∈ rest, 48 ≤ d ∧ d ≤ 57) := by
          have h1 : ((c :: rest).head? = some 45 ∨ (c :: rest).head? = some 43) := by
            simpa using hsign
          simp only [SetString, h1, if_true, List.tail_cons]
          exact key rest _ _
        rw [hbody]
        constructor
        · rintro ⟨hne, hd⟩
          refine ⟨[c], rest, rfl, ?_, hne, hd⟩
          rcases hsign with h | h
          · exact Or.inr (Or.inl (by rw [h]))
          · exact Or.inr (Or.inr (by rw [h]))
        · rintro ⟨sign, digits, hs, hsg, hne, hd⟩
          rcases hsg with h | h | h
          · subst h
            simp only [List.nil_append] at hs
            have hc := hd c (by rw [← hs]; exact List.mem_cons_self c rest)
            have hnot45 : ¬ ((48 : Byte) ≤ 45 ∧ (45 : Byte) ≤ 57) := by decide
            have hnot43 : ¬ ((48 : Byte) ≤ 43 ∧ (43 : Byte) ≤ 57) := by decide
            rcases hsign with h | h
            · rw [h] at hc; exact absurd hc hnot45
            · rw [h] at hc; exact absurd hc hnot43
          · subst h
            simp only [List.singleton_append, List.cons.injEq] at hs
            rw [hs.2]; exact ⟨hne, hd⟩
          · subst h
            simp only [List.singleton_append, List.cons.injEq] at hs
            rw [hs.2]; exact ⟨hne, hd⟩
      · have hbody : SetString (c :: rest) ≠ none ↔
            (c :: rest ≠ [] ∧ ∀ d ∈ c :: rest, 48 ≤ d ∧ d ≤ 57) := by
          have h1 : ¬ ((c :: rest).head? = some 45 ∨ (c :: rest).head? = some 43) := by
            simpa using hsign
          simp only [SetString, h1, if_false]
          exact key (c :: rest) _ _
        rw [hbody]
        constructor
        · rintro ⟨hne, hd⟩
          exact ⟨[], c :: rest, rfl, Or.inl rfl, hne, hd⟩
        · rintro ⟨sign, digits, hs, hsg, hne, hd⟩
          rcases hsg with h | h | h
          · subst h
            simp only [List.nil_append] at hs
            rw [hs]; exact ⟨hne, hd⟩
          · subst h
            simp only [List.singleton_append, List.cons.injEq] at hs
            exact absurd (Or.inl hs.1) hsign
          · subst h
            simp only [List.singleton_append, List.cons.injEq] at hs
            exact absurd (Or.inr hs.1) hsign

/-! ### JSON text -/

set_option maxRecDepth 100000 in
theorem htmlSafe_facts : ∀ c : Byte, htmlSafe c = true →
    jsonEscape c = [c] ∧ c ≠ 34 ∧ c ≠ 92 ∧ ¬ (c < 32 ∨ 128 ≤ c) := by
  decide

theorem jsonEscapeAll_safe (s : Bytes) (hs : ∀ c ∈ s, htmlSafe c = true) :
    jsonEscapeAll s = s := by
  induction s with
  | nil => rfl
  | cons c rest ih =>
      have hc := htmlSafe_facts c (hs c (List.mem_cons_self c rest))
      simp only [jsonEscapeAll, hc.1, List.singleton_append,
        ih (fun d hd => hs d (List.mem_cons_of_mem c hd))]

theorem jsonStringBody_safe (s rest : Bytes) (hs : ∀ c ∈ s, htmlSafe c = true) :
    jsonStringBody 0 0 (s ++ (34 : Byte) :: rest) = some (s, rest) := by
  induction s with
  | nil => simp [jsonStringBody]
  | cons c tl ih =>
      have hc := htmlSafe_facts c (hs c (List.mem_cons_self c tl))
      have htl := ih (fun d hd => hs d (List.mem_cons_of_mem c hd))
      have h32 : ¬ c < 32 := fun h => hc.2.2.2 (Or.inl h)
      have h128 : c < 128 := by
        have h := hc.2.2.2
        push_neg at h
        exact h.2
      show jsonStringBody 0 0 (c :: (tl ++ (34 : Byte) :: rest)) = some (c :: tl, rest)
      rw [jsonStringBody]
      simp only [hc.2.1, hc.2.2.1, h32, h128, if_false, if_true, htl, jsonEmit,
        List.singleton_append]

theorem jsonStringLit_jsonString (s rest : Bytes) (hs : ∀ c ∈ s, htmlSafe c = true) :
    jsonStringLit (jsonString s ++ rest) = some (s, rest) := by
  simp only [jsonString, jsonEscapeAll_safe s hs, List.cons_append, List.append_assoc,
    jsonStringLit, if_true]
  exact jsonStringBody_safe s rest hs

theorem jsonSkipSpace_jsonString (s rest : Bytes) :
    jsonSkipSpace (jsonString s ++ rest) = jsonString s ++ rest := by
  simp only [jsonString, List.cons_append, jsonSkipSpace]
  rfl

theorem jsonMemberValue_jsonString (fuel : Nat) (v rest : Bytes)
    (hv : ∀ c ∈ v, htmlSafe c = true) :
    jsonMemberValue fuel (jsonString v ++ rest) = some (JValue.str v, rest) := by
  have h := jsonStringBody_safe v rest hv
  simp only [jsonString, jsonEscapeAll_safe v hv, List.cons_append, List.append_assoc,
    List.nil_append, jsonMemberValue, if_true, h]

theorem jsonMember_written (fuel : Nat) (k v rest : Bytes)
    (hk : ∀ c ∈ k, htmlSafe c = true) (hv : ∀ c ∈ v, htmlSafe c = true) :
    jsonMember fuel (jsonString k ++ (58 : Byte) :: (jsonString v ++ rest))
      = some ((k, JValue.str v), rest) := by
  have h58 : jsonSkipSpace ((58 : Byte) :: (jsonString v ++ rest))
      = (58 : Byte) :: (jsonString v ++ rest) := rfl
  simp only [jsonMember, jsonStringLit_jsonString k _ hk, h58, if_true,
    jsonSkipSpace_jsonString, jsonMemberValue_jsonString fuel v _ hv]

/-- The members that `json.Marshal` writes for entries whose keys and values
need no escape are read back as those entries. -/
theorem jsonMemberList_written (fuel : Nat) (es : List (Bytes × Bytes)) :
    ∀ (count : Nat) (rest : Bytes), es ≠ [] → es.length ≤ count →
      (∀ e ∈ es, (∀ c ∈ e.1, htmlSafe c = true) ∧ (∀ c ∈ e.2, htmlSafe c = true)) →
      jsonMemberList fuel count (jsonMembers es ++ (125 : Byte) :: rest)
        = some (es.map (fun e => (e.1, JValue.str e.2)), rest) := by
  induction es with
  | nil => intro count rest h; exact absurd rfl h
  | cons e tl ih =>
      intro count rest _ hcount hsafe
      have he := hsafe e (List.mem_cons_self e tl)
      obtain ⟨f, rfl⟩ : ∃ f, count = f + 1 := ⟨count - 1, by simp at hcount; omega⟩
      cases tl with
      | nil =>
          have h125 : jsonSkipSpace ((125 : Byte) :: rest) = (125 : Byte) :: rest := rfl
          simp only [jsonMembers, List.append_assoc, List.cons_append, jsonMemberList,
            jsonMember_written fuel e.1 e.2 _ he.1 he.2, h125, if_true, List.map_cons,
            List.map_nil]
      | cons e2 tl2 =>
          have htl := ih f rest (by simp) (by simp at hcount ⊢; omega)
            (fun x hx => hsafe x (List.mem_cons_of_mem e hx))
          have h44 : ∀ r : Bytes, jsonSkipSpace ((44 : Byte) :: r) = (44 : Byte) :: r :=
            fun _ => rfl
          have hstart : ∀ r : Bytes, jsonSkipSpace (jsonMembers (e2 :: tl2) ++ r)
              = jsonMembers (e2 :: tl2) ++ r := by
            intro r
            cases tl2 with
            | nil => simp only [jsonMembers, List.append_assoc]; exact jsonSkipSpace_jsonString _ _
            | cons e3 tl3 =>
                simp only [jsonMembers, List.append_assoc]; exact jsonSkipSpace_jsonString _ _
          have hne : (44 : Byte) ≠ 125 := by decide
          simp only [jsonMembers, List.append_assoc, List.cons_append, jsonMemberList,
            jsonMember_written fuel e.1 e.2 _ he.1 he.2, h44, hne, if_false, if_true]
          simp only [jsonMembers, List.append_assoc, List.cons_append] at htl hstart
          rw [hstart, htl]
          simp only [List.map_cons]

theorem jsonMembers_length (es : List (Bytes × Bytes)) : es.length ≤ (jsonMembers es).length := by
  induction es with
  | nil => simp
  | cons e tl ih =>
      cases tl with
      | nil => simp [jsonMembers, jsonString]
      | cons e2 tl2 =>
          simp only [jsonMembers, List.length_append, List.length_cons] at ih ⊢
          omega

theorem jsonDocument_jsonMarshal (m : List (Bytes × Bytes)) (hne : sortEntries m ≠ [])
    (hsafe : ∀ e ∈ sortEntries m,
      (∀ c ∈ e.1, htmlSafe c = true) ∧ (∀ c ∈ e.2, htmlSafe c = true)) :
    jsonDocument (jsonMarshal m)
      = some (JDocument.object ((sortEntries m).map (fun e => (e.1, JValue.str e.2)))) := by
  have hlist := jsonMemberList_written (2 * (jsonMarshal m).length + 2) (sortEntries m)
    (jsonMarshal m).length [] hne
    (by
      have := jsonMembers_length (sortEntries m)
      simp only [jsonMarshal, List.length_cons, List.length_append]
      omega)
    hsafe
  obtain ⟨e, tl, hes⟩ : ∃ e tl, sortEntries m = e :: tl := by
    cases h : sortEntries m with
    | nil => exact absurd h hne
    | cons e tl => exact ⟨e, tl, rfl⟩
  have hhead : ∃ r2, jsonMembers (sortEntries m) ++ [(125 : Byte)] = (34 : Byte) :: r2 := by
    rw [hes]
    cases tl with
    | nil => simp only [jsonMembers, jsonString, List.cons_append]; exact ⟨_, rfl⟩
    | cons e2 tl2 => simp only [jsonMembers, jsonString, List.cons_append]; exact ⟨_, rfl⟩
  obtain ⟨r2, hr2⟩ := hhead
  have h1 : jsonSkipSpace (jsonMarshal m) = (123 : Byte) :: (34 : Byte) :: r2 := by
    simp only [jsonMarshal, hr2]; rfl
  have h2 : jsonSkipSpace ((34 : Byte) :: r2) = (34 : Byte) :: r2 := rfl
  have hne2 : (34 : Byte) ≠ 125 := by decide
  have h3 : jsonSkipSpace ([] : Bytes) = [] := rfl
  rw [hr2] at hlist
  unfold jsonDocument
  rw [h1]
  simp only [if_true]
  rw [h2]
  simp only [hne2, if_false, hlist, h3, if_true]

/-! ### The JSON codec of transactions -/

set_option maxRecDepth 100000 in
theorem htmlSafe_digit : ∀ c : Byte, 48 ≤ c ∧ c ≤ 57 → htmlSafe c = true := by
  decide

set_option maxRecDepth 100000 in
theorem htmlSafe_hex_digit : ∀ v : Byte,
    htmlSafe (hextable.getD (v.val / 16) 0) = true ∧
    htmlSafe (hextable.getD (v.val % 16) 0) = true := by
  rw [hextable_eq]; decide

theorem htmlSafe_bigString (x : Int) : ∀ c ∈ bigString (some x), htmlSafe c = true := by
  intro c hc
  simp only [bigString] at hc
  split at hc
  · simp only [List.mem_cons] at hc
    rcases hc with h | h
    · rw [h]; decide
    · exact htmlSafe_digit c (natString_digits _ c h)
  · exact htmlSafe_digit c (natString_digits _ c hc)

set_option maxRecDepth 100000 in
theorem htmlSafe_0x_hex (b : Bytes) : ∀ c ∈ ascii "0x" ++ hexEncodeToString b, htmlSafe c = true := by
  intro c hc
  simp only [List.mem_append] at hc
  rcases hc with h | h
  · have h0x : ∀ c ∈ ascii "0x", htmlSafe c = true := by decide
    exact h0x c h
  · exact hexEncodeToString_forall (fun c => htmlSafe c = true) htmlSafe_hex_digit b c h

theorem sortEntries_transaction (s e g a d : Bytes) :
    sortEntries
      [ (ascii "salt", s), (ascii "expirationTimeSeconds", e), (ascii "gasPrice", g),
        (ascii "signerAddress", a), (ascii "data", d) ]
    = [ (ascii "data", d), (ascii "expirationTimeSeconds", e), (ascii "gasPrice", g),
        (ascii "salt", s), (ascii "signerAddress", a) ] := rfl

theorem sortEntries_signed (s e g a d sig : Bytes) :
    sortEntries
      [ (ascii "salt", s), (ascii "expirationTimeSeconds", e), (ascii "gasPrice", g),
        (ascii "signerAddress", a), (ascii "data", d), (ascii "signature", sig) ]
    = [ (ascii "data", d), (ascii "expirationTimeSeconds", e), (ascii "gasPrice", g),
        (ascii "salt", s), (ascii "signature", sig), (ascii "signerAddress", a) ] := rfl

set_option maxRecDepth 100000 in
theorem jsonUnmarshalTransaction_written (s e g a d : Bytes)
    (hs : ∀ c ∈ s, htmlSafe c = true) (he : ∀ c ∈ e, htmlSafe c = true)
    (hg : ∀ c ∈ g, htmlSafe c = true) (ha : ∀ c ∈ a, htmlSafe c = true)
    (hd : ∀ c ∈ d, htmlSafe c = true) :
    jsonUnmarshalTransaction
      (jsonMarshal
        [ (ascii "salt", s), (ascii "expirationTimeSeconds", e), (ascii "gasPrice", g),
          (ascii "signerAddress", a), (ascii "data", d) ])
    = Except.ok ⟨s, e, g, a, d⟩ := by
  have hobj := jsonDocument_jsonMarshal
    [ (ascii "salt", s), (ascii "expirationTimeSeconds", e), (ascii "gasPrice", g),
      (ascii "signerAddress", a), (ascii "data", d) ]
    (by rw [sortEntries_transaction]; simp)
    (by
      rw [sortEntries_transaction]
      intro x hx
      simp only [List.mem_cons, List.mem_singleton, List.not_mem_nil, or_false] at hx
      rcases hx with h | h | h | h | h <;> rw [h] <;> constructor <;> dsimp only <;>
        first
        | decide
        | assumption)
  rw [sortEntries_transaction] at hobj
  simp only [jsonUnmarshalTransaction, jsonUnmarshalStruct, hobj]
  rfl

/-- What `MarshalJSON` writes for a transaction with all three numbers set
decodes to the five texts it was made from. -/
theorem jsonUnmarshalTransaction_MarshalJSON (keccak : Bytes → Hash) (tx : Transaction)
    (salt exp gp : Int) (hs : tx.Salt = some salt) (he : tx.ExpirationTimeSeconds = some exp)
    (hg : tx.GasPrice = some gp) :
    jsonUnmarshalTransaction (tx.MarshalJSON keccak)
      = Except.ok ⟨bigString (some salt), bigString (some exp), bigString (some gp),
          ascii "0x" ++ hexEncodeToString tx.SignerAddress.val, hexutilEncode tx.Data⟩ := by
  simp only [Transaction.MarshalJSON, hs, he, hg, ToLower_Address_Hex]
  exact jsonUnmarshalTransaction_written _ _ _ _ _ (htmlSafe_bigString salt)
    (htmlSafe_bigString exp) (htmlSafe_bigString gp) (htmlSafe_0x_hex _) (htmlSafe_0x_hex _)

theorem fromJSON_written (tx0 : Transaction) (salt exp gp : Int) (a : Address) (d : Bytes) :
    tx0.fromJSON ⟨bigString (some salt), bigString (some exp), bigString (some gp),
        ascii "0x" ++ hexEncodeToString a.val, hexutilEncode d⟩
      = (Outcome.ok,
          { Salt := some salt, ExpirationTimeSeconds := some exp, GasPrice := some gp,
            SignerAddress := a, Data := d, hash := tx0.hash }) := by
  have hlen : ¬ (hexutilEncode d).length < 2 := by
    have h2 : (ascii "0x").length = 2 := by decide
    simp only [hexutilEncode, List.length_append, h2]; omega
  have htake : (hexutilEncode d).take 2 = ascii "0x" := rfl
  simp only [Transaction.fromJSON, SetString_bigString, HexToAddress_lower_hex, hlen, if_false,
    hexutilDecode_hexutilEncode, htake, if_true]

/-- C6: for a transaction whose three numbers are set, `UnmarshalJSON` of the
output of `MarshalJSON` succeeds, yields the same salt, expirationTimeSeconds,
gasPrice, signerAddress and data (the receiver keeps its own hash cache), and
marshalling the decoded transaction gives the same bytes again. -/
theorem C6_json_round_trip (keccak : Bytes → Hash) (tx tx0 : Transaction)
    (hs : tx.Salt ≠ none) (he : tx.ExpirationTimeSeconds ≠ none) (hg : tx.GasPrice ≠ none) :
    tx0.UnmarshalJSON (tx.MarshalJSON keccak) = (Outcome.ok, { tx with hash := tx0.hash })
    ∧ (tx0.UnmarshalJSON (tx.MarshalJSON keccak)).2.MarshalJSON keccak
        = tx.MarshalJSON keccak := by
  obtain ⟨salt, hsalt⟩ := Option.ne_none_iff_exists'.mp hs
  obtain ⟨exp, hexp⟩ := Option.ne_none_iff_exists'.mp he
  obtain ⟨gp, hgp⟩ := Option.ne_none_iff_exists'.mp hg
  have hrt : tx0.UnmarshalJSON (tx.MarshalJSON keccak)
      = (Outcome.ok, { tx with hash := tx0.hash }) := by
    simp only [Transaction.UnmarshalJSON, Transaction.UnmarshalJSONWith,
      jsonUnmarshalTransaction_MarshalJSON keccak tx salt exp gp hsalt hexp hgp,
      fromJSON_written]
    cases tx
    simp only at hsalt hexp hgp
    simp only [hsalt, hexp, hgp]
  exact ⟨hrt, by rw [hrt]; rfl⟩

theorem C6_json_round_trip_witness :
    (Transaction.fresh sampleTx).UnmarshalJSON (sampleTx.MarshalJSON standInEnv.Keccak256)
      = (Outcome.ok, { sampleTx with hash := (Transaction.fresh sampleTx).hash })
    ∧ ((Transaction.fresh sampleTx).UnmarshalJSON
          (sampleTx.MarshalJSON standInEnv.Keccak256)).2.MarshalJSON standInEnv.Keccak256
        = sampleTx.MarshalJSON standInEnv.Keccak256 :=
  C6_json_round_trip standInEnv.Keccak256 sampleTx (Transaction.fresh sampleTx)
    (by decide) (by decide) (by decide)

/-! ### Errors of the JSON codec -/

theorem fromJSON_salt_error (tx : Transaction) (raw : transactionJSON)
    (h : SetString raw.Salt = none) :
    tx.fromJSON raw = (Outcome.error "unable to unmarshal value for \"salt\"", tx) := by
  simp only [Transaction.fromJSON, h]

theorem fromJSON_expirationTimeSeconds_error (tx : Transaction) (raw : transactionJSON)
    (h1 : SetString raw.Salt ≠ none) (h2 : SetString raw.ExpirationTimeSeconds = none) :
    tx.fromJSON raw
      = (Outcome.error "unable to unmarshal value for \"expirationTimeSeconds\"", tx) := by
  obtain ⟨s, hs⟩ := Option.ne_none_iff_exists'.mp h1
  simp only [Transaction.fromJSON, hs, h2]

theorem fromJSON_gasPrice_error (tx : Transaction) (raw : transactionJSON)
    (h1 : SetString raw.Salt ≠ none) (h2 : SetString raw.ExpirationTimeSeconds ≠ none)
    (h3 : SetString raw.GasPrice = none) :
    tx.fromJSON raw = (Outcome.error "unable to unmarshal value for \"gasPrice\"", tx) := by
  obtain ⟨s, hs⟩ := Option.ne_none_iff_exists'.mp h1
  obtain ⟨e, he⟩ := Option.ne_none_iff_exists'.mp h2
  simp only [Transaction.fromJSON, hs, he, h3]

/-- With three valid numbers, a data string shorter than two bytes makes
`fromJSON` panic at `ztx.Data[:2]`. -/
theorem fromJSON_short_data_panics (tx : Transaction) (raw : transactionJSON)
    (h1 : SetString raw.Salt ≠ none) (h2 : SetString raw.ExpirationTimeSeconds ≠ none)
    (h3 : SetString raw.GasPrice ≠ none) (hlen : raw.Data.length < 2) :
    (tx.fromJSON raw).1 = Outcome.panic "runtime error: slice bounds out of range" := by
  obtain ⟨s, hs⟩ := Option.ne_none_iff_exists'.mp h1
  obtain ⟨e, he⟩ := Option.ne_none_iff_exists'.mp h2
  obtain ⟨g, hg⟩ := Option.ne_none_iff_exists'.mp h3
  simp only [Transaction.fromJSON, hs, he, hg, hlen, if_true]

/-- With three valid numbers and a data string of two bytes or more,
`fromJSON` returns an error exactly when `hexutil.Decode` rejects the string. -/
theorem fromJSON_long_data (tx : Transaction) (raw : transactionJSON)
    (h1 : SetString raw.Salt ≠ none) (h2 : SetString raw.ExpirationTimeSeconds ≠ none)
    (h3 : SetString raw.GasPrice ≠ none) (hlen : 2 ≤ raw.Data.length) :
    (∀ msg, (hexutilDecode raw.Data).2 = some msg → (tx.fromJSON raw).1 = Outcome.error msg) ∧
    ((hexutilDecode raw.Data).2 = none → (tx.fromJSON raw).1 = Outcome.ok) := by
  obtain ⟨s, hs⟩ := Option.ne_none_iff_exists'.mp h1
  obtain ⟨e, he⟩ := Option.ne_none_iff_exists'.mp h2
  obtain ⟨g, hg⟩ := Option.ne_none_iff_exists'.mp h3
  have hl : ¬ raw.Data.length < 2 := by omega
  simp only [Transaction.fromJSON, hs, he, hg, hl, if_false]
  constructor
  · intro msg hmsg
    split
    · rename_i b err heq
      rw [heq] at hmsg
      simp only [Option.some.injEq] at hmsg
      rw [hmsg]
    · rename_i b heq
      rw [heq] at hmsg
      exact absurd hmsg (by simp)
  · intro hnone
    split
    · rename_i b err heq
      rw [heq] at hnone
      exact absurd hnone (by simp)
    · rfl

/-- C7: the code panics where the claim promises an error. With valid
salt, expirationTimeSeconds and gasPrice, `UnmarshalJSON` ends in a run-time
panic when the data field is the empty string, is missing, or has one
character. -/
theorem C7_short_data_panics :
    (sampleTx.UnmarshalJSON (ascii
      "\x7b\"salt\":\"1\",\"expirationTimeSeconds\":\"2\",\"gasPrice\":\"3\",\"signerAddress\":\"0x01\",\"data\":\"\"\x7d")).1
      = Outcome.panic "runtime error: slice bounds out of range"
    ∧ (sampleTx.UnmarshalJSON (ascii
      "\x7b\"salt\":\"1\",\"expirationTimeSeconds\":\"2\",\"gasPrice\":\"3\",\"signerAddress\":\"0x01\"\x7d")).1
      = Outcome.panic "runtime error: slice bounds out of range"
    ∧ (sampleTx.UnmarshalJSON (ascii
      "\x7b\"salt\":\"1\",\"expirationTimeSeconds\":\"2\",\"gasPrice\":\"3\",\"signerAddress\":\"0x01\",\"data\":\"0\"\x7d")).1
      = Outcome.panic "runtime error: slice bounds out of range" := by
  refine ⟨?_, ?_, ?_⟩ <;> rfl

/-! ### What `json.Unmarshal` decodes -/

set_option maxRecDepth 100000 in
/-- Members that the struct does not name are skipped, whatever their kind:
numbers, literals, nested objects and arrays. -/
theorem jsonUnmarshalTransaction_skips_unknown_members :
    jsonUnmarshalTransaction (ascii
      "\x7b\"salt\":\"1\",\"extra\":5,\"domain\":\x7b\"a\":[1,\x7b\"b\":null\x7d,-2.5e3]\x7d,\"expirationTimeSeconds\":\"2\",\"gasPrice\":\"3\",\"flag\":true,\"signerAddress\":\"0x01\",\"data\":\"0x\"\x7d")
      = Except.ok ⟨ascii "1", ascii "2", ascii "3", ascii "0x01", ascii "0x"⟩ := by
  rfl

/-- Escapes inside a string are decoded, and UTF-8 text above 127 is kept. -/
theorem jsonUnmarshalTransaction_decodes_escapes :
    jsonUnmarshalTransaction (ascii
      "\x7b\"salt\":\"\\u0031\\u00e9\",\"gasPrice\":\"\\n\\/\",\"data\":\"0\\u0078\"\x7d")
      = Except.ok ⟨[49, 0xC3, 0xA9], [], [10, 47], [], ascii "0x"⟩
    ∧ jsonUnmarshalTransaction
        (ascii "\x7b\"salt\":\"1" ++ [0xC3, 0xA9] ++ ascii "\",\"data\":\"0x\"\x7d")
      = Except.ok ⟨[49, 0xC3, 0xA9], [], [], [], ascii "0x"⟩ := by
  refine ⟨?_, ?_⟩ <;> rfl

/-- A member that is `null` leaves its field empty, a key matches its field
without regard to case, and of two members for one field the later one stays. -/
theorem jsonUnmarshalTransaction_null_case_duplicates :
    jsonUnmarshalTransaction (ascii
      "\x7b \"SALT\" : \"1\", \"salt\":\"7\", \"GasPrice\":\"3\", \"data\":null \x7d")
      = Except.ok ⟨ascii "7", [], ascii "3", [], []⟩ := by
  rfl

/-- A member of a string field that is a number, a literal, an array or an
object is a type error of `json.Unmarshal`, the first one when there are
several, and so is a document that is no object; text that is not JSON is a
syntax error. -/
theorem jsonUnmarshalTransaction_errors :
    jsonUnmarshalTransaction (ascii "\x7b\"salt\":\"1\",\"gasPrice\":[3],\"data\":true\x7d")
      = Except.error
          "json: cannot unmarshal array into Go struct field transactionJSON.gasPrice of type string"
    ∧ jsonUnmarshalTransaction (ascii "[\"1\"]")
      = Except.error "json: cannot unmarshal array into Go value of type zrx.transactionJSON"
    ∧ jsonDocument (ascii "\x7b\"salt\":\"1\",\x7d") = none
    ∧ jsonDocument (ascii "\x7b\"salt\":\"1\"\x7d x") = none
    ∧ jsonDocument (ascii "\x7b\"salt\":\"1\",\"n\":01\x7d") = none
    ∧ jsonDocument (ascii "\x7b\"salt\":\"\\q\"\x7d") = none := by
  refine ⟨?_, ?_, ?_, ?_, ?_, ?_⟩ <;> rfl

/-- On documents outside what `MarshalJSON` writes, `UnmarshalJSON` goes on to
`fromJSON` as the code does: an escaped salt is read, an extra member is
skipped, and a `null` data member reaches the slice expression. -/
theorem UnmarshalJSON_beyond_written_text :
    sampleTx.UnmarshalJSON (ascii
      "\x7b\"salt\":\"\\u0031\",\"expirationTimeSeconds\":\"2\",\"gasPrice\":\"3\",\"signerAddress\":\"0x01\",\"data\":\"0x\",\"extra\":5\x7d")
      = (Outcome.ok,
          { Salt := some 1, ExpirationTimeSeconds := some 2, GasPrice := some 3,
            SignerAddress := HexToAddress (ascii "0x01"), Data := [], hash := none })
    ∧ (sampleTx.UnmarshalJSON (ascii
      "\x7b\"salt\":\"1\",\"expirationTimeSeconds\":\"2\",\"gasPrice\":\"3\",\"signerAddress\":\"0x01\",\"data\":null\x7d")).1
      = Outcome.panic "runtime error: slice bounds out of range" := by
  refine ⟨?_, ?_⟩ <;> decide

/-- C8, counterexample: the salt `x` is no base-10 integer, yet the error that
`UnmarshalJSON` returns is the type error of `json.Unmarshal` for the
signerAddress member, which is a number; it does not name salt. -/
theorem C8_type_error_comes_first :
    sampleTx.UnmarshalJSON (ascii
      "\x7b\"salt\":\"x\",\"expirationTimeSeconds\":\"2\",\"gasPrice\":\"3\",\"signerAddress\":5,\"data\":\"0x\"\x7d")
      = (Outcome.error
          "json: cannot unmarshal number into Go struct field transactionJSON.signerAddress of type string",
         sampleTx)
    ∧ SetString (ascii "x") = none
    ∧ (sampleTx.UnmarshalJSON (ascii
      "\x7b\"salt\":\"x\",\"expirationTimeSeconds\":\"2\",\"gasPrice\":\"3\",\"signerAddress\":5,\"data\":\"0x\"\x7d")).1
      ≠ Outcome.error "unable to unmarshal value for \"salt\"" := by
  refine ⟨?_, ?_, ?_⟩ <;> decide

/-- C8, as amended: `UnmarshalJSON` returns the error of `json.Unmarshal` when
that call fails; and for every document that `json.Unmarshal` decodes into
`transactionJSON`, when salt, expirationTimeSeconds or gasPrice is not a
base-10 integer string, it returns the error that names the first such field
in the order salt, expirationTimeSeconds, gasPrice, whatever the other fields
hold, and leaves the transaction as it was. The statement is for every
function in the place of `json.Unmarshal`, the model `jsonUnmarshalTransaction`
of `Transaction.UnmarshalJSON` among them. -/
theorem C8_numeric_errors_name_first_field
    (unmarshal : Bytes → Except String transactionJSON) (tx : Transaction) (data : Bytes) :
    (∀ raw, unmarshal data = Except.ok raw →
      (SetString raw.Salt = none →
        tx.UnmarshalJSONWith unmarshal data
          = (Outcome.error "unable to unmarshal value for \"salt\"", tx)) ∧
      (SetString raw.Salt ≠ none → SetString raw.ExpirationTimeSeconds = none →
        tx.UnmarshalJSONWith unmarshal data
          = (Outcome.error "unable to unmarshal value for \"expirationTimeSeconds\"", tx)) ∧
      (SetString raw.Salt ≠ none → SetString raw.ExpirationTimeSeconds ≠ none →
        SetString raw.GasPrice = none →
        tx.UnmarshalJSONWith unmarshal data
          = (Outcome.error "unable to unmarshal value for \"gasPrice\"", tx))) ∧
    (∀ err, unmarshal data = Except.error err →
      tx.UnmarshalJSONWith unmarshal data = (Outcome.error err, tx)) := by
  refine ⟨fun raw hraw => ?_, fun err herr => ?_⟩
  · simp only [Transaction.UnmarshalJSONWith, hraw]
    exact ⟨fromJSON_salt_error tx raw, fromJSON_expirationTimeSeconds_error tx raw,
      fromJSON_gasPrice_error tx raw⟩
  · simp only [Transaction.UnmarshalJSONWith, herr]

set_option maxRecDepth 100000 in
theorem C8_numeric_errors_name_first_field_witness :
    (jsonUnmarshalTransaction
        (ascii "\x7b\"extra\":5,\"salt\":\"1\",\"expirationTimeSeconds\":\"1" ++ [0xC3, 0xA9]
          ++ ascii "\",\"gasPrice\":\"\",\"signerAddress\":\"zz\",\"data\":\"\"\x7d")
        = Except.ok ⟨ascii "1", [49, 0xC3, 0xA9], [], ascii "zz", []⟩
      ∧ SetString (ascii "1") ≠ none ∧ SetString [49, 0xC3, 0xA9] = none) ∧
    sampleTx.UnmarshalJSON
        (ascii "\x7b\"extra\":5,\"salt\":\"1\",\"expirationTimeSeconds\":\"1" ++ [0xC3, 0xA9]
          ++ ascii "\",\"gasPrice\":\"\",\"signerAddress\":\"zz\",\"data\":\"\"\x7d")
      = (Outcome.error "unable to unmarshal value for \"expirationTimeSeconds\"", sampleTx) :=
  ⟨⟨rfl, by decide, by decide⟩,
   ((C8_numeric_errors_name_first_field jsonUnmarshalTransaction sampleTx
      (ascii "\x7b\"extra\":5,\"salt\":\"1\",\"expirationTimeSeconds\":\"1" ++ [0xC3, 0xA9]
          ++ ascii "\",\"gasPrice\":\"\",\"signerAddress\":\"zz\",\"data\":\"\"\x7d")).1
      ⟨ascii "1", [49, 0xC3, 0xA9], [], ascii "zz", []⟩ (by rfl)).2.1 (by decide) (by decide)⟩

/-! ### Decoding hex text -/

theorem decimalDigits_eq_digits (fuel : Nat) :
    ∀ n, 0 < n → n < fuel → decimalDigits fuel n = (Nat.digits 10 n).reverse := by
  induction fuel with
  | zero => intro n _ h; omega
  | succ f ih =>
      intro n hpos hn
      simp only [decimalDigits]
      split
      · rename_i hlt
        rw [Nat.digits_of_lt 10 n (by omega) hlt]
        rfl
      · rename_i hge
        rw [Nat.digits_def' (by decide) hpos, List.reverse_cons,
          ih (n / 10) (by omega) (by omega)]

/-- Method `String` of a non-nil `big.Int` writes a minus sign for a negative
value and then the base-10 digits of the absolute value, `0` for zero. -/
theorem bigString_eq_digits (x : Int) :
    bigString (some x) =
      (if x < 0 then [(45 : Byte)] else []) ++
        (if x = 0 then [(48 : Byte)] else (Nat.digits 10 x.natAbs).reverse.map digitByte) := by
  have hnat : ∀ n : Nat, natString n =
      if n = 0 then [(48 : Byte)] else (Nat.digits 10 n).reverse.map digitByte := by
    intro n
    by_cases h0 : n = 0
    · subst h0; rfl
    · simp only [natString, h0, if_false]
      rw [decimalDigits_eq_digits (n + 1) n (by omega) (by omega)]
  have hz : x.natAbs = 0 ↔ x = 0 := Int.natAbs_eq_zero
  simp only [bigString, hnat, hz]
  split <;> simp

theorem jsonString_safe (s : Bytes) (hs : ∀ c ∈ s, htmlSafe c = true) :
    jsonString s = (34 : Byte) :: (s ++ [34]) := by
  simp only [jsonString, jsonEscapeAll_safe s hs]

theorem jsonMarshal_transaction (s e g a d : Bytes)
    (hs : ∀ c ∈ s, htmlSafe c = true) (he : ∀ c ∈ e, htmlSafe c = true)
    (hg : ∀ c ∈ g, htmlSafe c = true) (ha : ∀ c ∈ a, htmlSafe c = true)
    (hd : ∀ c ∈ d, htmlSafe c = true) :
    jsonMarshal
        [ (ascii "salt", s), (ascii "expirationTimeSeconds", e), (ascii "gasPrice", g),
          (ascii "signerAddress", a), (ascii "data", d) ]
      = ascii "\x7b\"data\":\"" ++ d ++ ascii "\",\"expirationTimeSeconds\":\"" ++ e ++
        ascii "\",\"gasPrice\":\"" ++ g ++ ascii "\",\"salt\":\"" ++ s ++
        ascii "\",\"signerAddress\":\"" ++ a ++ ascii "\"\x7d" := by
  simp only [jsonMarshal, sortEntries_transaction, jsonMembers, jsonString_safe s hs,
    jsonString_safe e he, jsonString_safe g hg, jsonString_safe a ha, jsonString_safe d hd]
  simp only [List.append_assoc, List.cons_append, List.nil_append]
  rfl

theorem jsonMarshal_signed (s e g a d sig : Bytes)
    (hs : ∀ c ∈ s, htmlSafe c = true) (he : ∀ c ∈ e, htmlSafe c = true)
    (hg : ∀ c ∈ g, htmlSafe c = true) (ha : ∀ c ∈ a, htmlSafe c = true)
    (hd : ∀ c ∈ d, htmlSafe c = true) (hsig : ∀ c ∈ sig, htmlSafe c = true) :
    jsonMarshal
        [ (ascii "salt", s), (ascii "expirationTimeSeconds", e), (ascii "gasPrice", g),
          (ascii "signerAddress", a), (ascii "data", d), (ascii "signature", sig) ]
      = ascii "\x7b\"data\":\"" ++ d ++ ascii "\",\"expirationTimeSeconds\":\"" ++ e ++
        ascii "\",\"gasPrice\":\"" ++ g ++ ascii "\",\"salt\":\"" ++ s ++
        ascii "\",\"signature\":\"" ++ sig ++
        ascii "\",\"signerAddress\":\"" ++ a ++ ascii "\"\x7d" := by
  simp only [jsonMarshal, sortEntries_signed, jsonMembers, jsonString_safe s hs,
    jsonString_safe e he, jsonString_safe g hg, jsonString_safe a ha, jsonString_safe d hd,
    jsonString_safe sig hsig]
  simp only [List.append_assoc, List.cons_append, List.nil_append]
  rfl

set_option maxRecDepth 100000 in
theorem hex_digit_mem : ∀ v : Byte,
    hextable.getD (v.val / 16) 0 ∈ ascii "0123456789abcdef" ∧
    hextable.getD (v.val % 16) 0 ∈ ascii "0123456789abcdef" := by
  rw [hextable_eq]; decide

/-- C10: for a transaction whose three numbers are set, `MarshalJSON` writes
one JSON object with the five keys data, expirationTimeSeconds, gasPrice,
salt and signerAddress (the order of `json.Marshal`), each value a string:
the numbers in base 10, the address as `0x` and 40 lower-case hex digits, the
data as `0x` and its lower-case hex digits. `SignedTransaction.MarshalJSON`
writes the same five members and the member signature, `0x` and the
lower-case hex digits of the signature. -/
theorem C10_MarshalJSON_text (keccak : Bytes → Hash) (tx : Transaction) (sig : Bytes)
    (salt exp gp : Int) (hs : tx.Salt = some salt)
    (he : tx.ExpirationTimeSeconds = some exp) (hg : tx.GasPrice = some gp) :
    let decimal : Int → Bytes := fun x =>
      (if x < 0 then [(45 : Byte)] else []) ++
        (if x = 0 then [(48 : Byte)] else (Nat.digits 10 x.natAbs).reverse.map digitByte)
    tx.MarshalJSON keccak =
        ascii "\x7b\"data\":\"" ++ (ascii "0x" ++ hexEncodeToString tx.Data) ++
        ascii "\",\"expirationTimeSeconds\":\"" ++ decimal exp ++
        ascii "\",\"gasPrice\":\"" ++ decimal gp ++
        ascii "\",\"salt\":\"" ++ decimal salt ++
        ascii "\",\"signerAddress\":\"" ++ (ascii "0x" ++ hexEncodeToString tx.SignerAddress.val) ++
        ascii "\"\x7d"
    ∧ (SignedTransaction.mk tx sig).MarshalJSON keccak =
        ascii "\x7b\"data\":\"" ++ (ascii "0x" ++ hexEncodeToString tx.Data) ++
        ascii "\",\"expirationTimeSeconds\":\"" ++ decimal exp ++
        ascii "\",\"gasPrice\":\"" ++ decimal gp ++
        ascii "\",\"salt\":\"" ++ decimal salt ++
        ascii "\",\"signature\":\"" ++ (ascii "0x" ++ hexEncodeToString sig) ++
        ascii "\",\"signerAddress\":\"" ++ (ascii "0x" ++ hexEncodeToString tx.SignerAddress.val) ++
        ascii "\"\x7d"
    ∧ (hexEncodeToString tx.SignerAddress.val).length = 40
    ∧ (hexEncodeToString tx.Data).length = 2 * tx.Data.length
    ∧ (hexEncodeToString sig).length = 2 * sig.length
    ∧ (∀ b : Bytes, ∀ c ∈ hexEncodeToString b, c ∈ ascii "0123456789abcdef")
    ∧ (∀ d < 10, digitByte d = (ascii "0123456789").getD d 0) := by
  intro decimal
  have hdec : ∀ x : Int, decimal x = bigString (some x) := fun x => (bigString_eq_digits x).symm
  refine ⟨?_, ?_, ?_, hexEncodeToString_length _, hexEncodeToString_length _, ?_, ?_⟩
  · simp only [hdec, Transaction.MarshalJSON, hs, he, hg, ToLower_Address_Hex, hexutilEncode]
    exact jsonMarshal_transaction _ _ _ _ _ (htmlSafe_bigString salt) (htmlSafe_bigString exp)
      (htmlSafe_bigString gp) (htmlSafe_0x_hex _) (htmlSafe_0x_hex _)
  · simp only [hdec, SignedTransaction.MarshalJSON, hs, he, hg, ToLower_Address_Hex,
      hexutilEncode]
    exact jsonMarshal_signed _ _ _ _ _ _ (htmlSafe_bigString salt) (htmlSafe_bigString exp)
      (htmlSafe_bigString gp) (htmlSafe_0x_hex _) (htmlSafe_0x_hex _) (htmlSafe_0x_hex _)
  · rw [hexEncodeToString_length, tx.SignerAddress.property]
  · exact fun b => hexEncodeToString_forall _ hex_digit_mem b
  · decide

set_option maxRecDepth 100000 in
theorem C10_MarshalJSON_text_witness :
    sampleTx.MarshalJSON standInEnv.Keccak256 = ascii
      "\x7b\"data\":\"0xdeadbeef\",\"expirationTimeSeconds\":\"1700000000\",\"gasPrice\":\"1\",\"salt\":\"1234567890\",\"signerAddress\":\"0xc02aaa39b223fe8d0a0e5c4f27ead9083c756cc2\"\x7d"
    ∧ (SignedTransaction.mk sampleTx [0x1b, 0x2c]).MarshalJSON standInEnv.Keccak256 = ascii
      "\x7b\"data\":\"0xdeadbeef\",\"expirationTimeSeconds\":\"1700000000\",\"gasPrice\":\"1\",\"salt\":\"1234567890\",\"signature\":\"0x1b2c\",\"signerAddress\":\"0xc02aaa39b223fe8d0a0e5c4f27ead9083c756cc2\"\x7d" := by
  have h := C10_MarshalJSON_text standInEnv.Keccak256 sampleTx [0x1b, 0x2c]
    1234567890 1700000000 1 rfl rfl rfl
  have d1 : Nat.digits 10 (1700000000 : Int).natAbs = [0, 0, 0, 0, 0, 0, 0, 0, 7, 1] := by
    norm_num
  have d2 : Nat.digits 10 (1 : Int).natAbs = [1] := by norm_num
  have d3 : Nat.digits 10 (1234567890 : Int).natAbs = [0, 9, 8, 7, 6, 5, 4, 3, 2, 1] := by
    norm_num
  simp only [d1, d2, d3] at h
  exact ⟨h.1.trans (by decide), h.2.1.trans (by decide)⟩

/-! ### Signature bytes -/

theorem copyInto_window (a z c src : Bytes) (lo hi : Nat) (ha : a.length = lo)
    (hz : z.length = hi - lo) (hsrc : src.length = hi - lo) :
    copyInto (a ++ z ++ c) lo hi src = a ++ src ++ c := by
  have hmin : min (hi - lo) src.length = hi - lo := by rw [hsrc]; exact Nat.min_self _
  have htake : (a ++ z ++ c).take lo = a := by
    rw [List.append_assoc, List.take_append_of_le_length (by omega), ← ha, List.take_length]
  have hdrop : (a ++ z ++ c).drop (lo + (hi - lo)) = c := by
    have hlen : (a ++ z).length = lo + (hi - lo) := by simp [ha, hz]
    rw [← hlen, List.drop_left]
  have hsrc2 : src.take (hi - lo) = src := by rw [← hsrc, List.take_length]
  simp only [copyInto, hmin, htake, hdrop, hsrc2]

theorem set_after (a : Bytes) (x y : Byte) :
    ∀ n, a.length = n → (a ++ [x]).set n y = a ++ [y] := by
  induction a with
  | nil => intro n h; subst h; rfl
  | cons b rest ih =>
      intro n h
      subst h
      simp only [List.cons_append, List.length_cons, List.set_cons_succ, ih rest.length rfl]

theorem ECSignatureToBytes_eq (e : ECSignature) :
    ECSignatureToBytes e = e.V :: (e.R.val ++ e.S.val ++ [EthSignSignature]) := by
  have h1 : (List.replicate ECSignatureLength (0 : Byte)).set 0 e.V
      = [e.V] ++ List.replicate 32 0 ++ List.replicate 33 0 := by
    rfl
  have h2 : copyInto ([e.V] ++ List.replicate 32 0 ++ List.replicate 33 0) 1 33 e.R.val
      = [e.V] ++ e.R.val ++ List.replicate 33 0 :=
    copyInto_window _ _ _ _ 1 33 rfl (by simp) (by rw [e.R.property])
  have h3 : [e.V] ++ e.R.val ++ List.replicate 33 (0 : Byte)
      = ([e.V] ++ e.R.val) ++ List.replicate 32 0 ++ [0] := by
    have : List.replicate 33 (0 : Byte) = List.replicate 32 0 ++ [0] := by decide
    rw [this, List.append_assoc ([e.V] ++ e.R.val)]
  have h4 : copyInto (([e.V] ++ e.R.val) ++ List.replicate 32 0 ++ [0]) 33 65 e.S.val
      = ([e.V] ++ e.R.val) ++ e.S.val ++ [0] :=
    copyInto_window _ _ _ _ 33 65 (by simp [e.R.property]) (by simp) (by rw [e.S.property])
  have h5 : (([e.V] ++ e.R.val) ++ e.S.val ++ [0]).set 65 EthSignSignature
      = ([e.V] ++ e.R.val) ++ e.S.val ++ [EthSignSignature] :=
    set_after _ _ _ 65 (by simp [e.R.property, e.S.property])
  simp only [ECSignatureToBytes, h1, h2, h3, h4, h5]
  simp

/-- C11: for every signature, `ECSignatureToBytes` is 66 bytes long: byte 0
is `v`, bytes 1..33 are `r`, bytes 33..65 are `s` and byte 65 is the EthSign
tag 3, whatever `v`, `r` and `s` are. -/
theorem C11_ECSignatureToBytes_layout (e : ECSignature) :
    (ECSignatureToBytes e).length = 66 ∧
    (ECSignatureToBytes e).take 1 = [e.V] ∧
    ((ECSignatureToBytes e).drop 1).take 32 = e.R.val ∧
    ((ECSignatureToBytes e).drop 33).take 32 = e.S.val ∧
    (ECSignatureToBytes e).drop 65 = [EthSignSignature] ∧
    EthSignSignature = 3 := by
  have hR := e.R.property
  have hS := e.S.property
  rw [ECSignatureToBytes_eq]
  refine ⟨?_, ?_, ?_, ?_, ?_, rfl⟩
  · simp [hR, hS]
  · simp
  · simp only [List.drop_succ_cons, List.drop_zero, List.append_assoc]
    rw [List.take_append_of_le_length (by omega), List.take_of_length_le (by omega)]
  · have h33 : (e.V :: (e.R.val ++ e.S.val ++ [EthSignSignature])).drop 33
        = e.S.val ++ [EthSignSignature] := by
      have hlen : (e.V :: e.R.val).length = 33 := by simp [hR]
      have : e.V :: (e.R.val ++ e.S.val ++ [EthSignSignature])
          = (e.V :: e.R.val) ++ (e.S.val ++ [EthSignSignature]) := by simp
      rw [this, ← hlen, List.drop_left]
    rw [h33, List.take_append_of_le_length (by omega), List.take_of_length_le (by omega)]
  · have hlen : (e.V :: (e.R.val ++ e.S.val)).length = 65 := by simp [hR, hS]
    have : e.V :: (e.R.val ++ e.S.val ++ [EthSignSignature])
        = (e.V :: (e.R.val ++ e.S.val)) ++ [EthSignSignature] := by simp
    rw [this, ← hlen, List.drop_left]
/-! ### Salt generation -/

theorem randIntLoop_value (reader : Nat → Except String Bytes) (max b : Nat) (fuel : Nat) :
    ∀ i n, randIntLoop reader max b fuel i = some (Returned.value n) →
      0 ≤ n ∧ n < (max : Int) := by
  induction fuel with
  | zero => intro i n h; simp [randIntLoop] at h
  | succ f ih =>
      intro i n h
      simp only [randIntLoop] at h
      split at h
      · simp at h
      · split at h
        · rename_i hlt
          simp only [Option.some.injEq, Returned.value.injEq] at h
          rw [← h]
          exact ⟨Int.natCast_nonneg _, by exact_mod_cast hlt⟩
        · exact ih _ n h

theorem randIntLoop_error (reader : Nat → Except String Bytes) (max b : Nat) (fuel : Nat) :
    ∀ i err, randIntLoop reader max b fuel i = some (Returned.error err) →
      ∃ j, i ≤ j ∧ j < i + fuel ∧ reader j = Except.error err := by
  induction fuel with
  | zero => intro i err h; simp [randIntLoop] at h
  | succ f ih =>
      intro i err h
      simp only [randIntLoop] at h
      split at h
      · rename_i e he
        simp only [Option.some.injEq, Returned.error.injEq] at h
        exact ⟨i, Nat.le_refl i, by omega, by rw [he, h]⟩
      · split at h
        · simp at h
        · obtain ⟨j, h1, h2, h3⟩ := ih _ err h
          exact ⟨j, by omega, by omega, h3⟩

theorem randIntLoop_no_panic (reader : Nat → Except String Bytes) (max b : Nat) (fuel : Nat) :
    ∀ i msg, randIntLoop reader max b fuel i ≠ some (Returned.panic msg) := by
  induction fuel with
  | zero => intro i msg h; simp [randIntLoop] at h
  | succ f ih =>
      intro i msg h
      simp only [randIntLoop] at h
      split at h
      · simp at h
      · split at h
        · simp at h
        · exact ih _ msg h

/-- The loop returns as soon as a read fails or a candidate is below `max`. -/
theorem randIntLoop_returns (reader : Nat → Except String Bytes) (max b : Nat) (j : Nat)
    (hj : ∀ bytes, reader j = Except.ok bytes → SetBytes (clearTopBits b bytes) < max)
    (fuel : Nat) :
    ∀ i, i ≤ j → j < i + fuel → ∃ r, randIntLoop reader max b fuel i = some r := by
  induction fuel with
  | zero => intro i h1 h2; omega
  | succ f ih =>
      intro i h1 h2
      simp only [randIntLoop]
      split
      · exact ⟨_, rfl⟩
      · rename_i bytes hb
        split
        · exact ⟨_, rfl⟩
        · rename_i hge
          by_cases hij : i = j
          · subst hij
            exact absurd (hj bytes hb) hge
          · exact ih (i + 1) (by omega) (by omega)

set_option maxRecDepth 100000 in
theorem GeneratePseudoRandomSalt_eq_loop (reader : Nat → Except String Bytes) (fuel : Nat) :
    GeneratePseudoRandomSalt reader fuel
      = randIntLoop reader (2 ^ 256 - 1) 8 fuel 0 := by
  have hmax : ¬ ((2 : Int) ^ 256 - 1 ≤ 0) := by decide
  have hbits : bitLen ((2 : Int) ^ 256 - 1 - 1).toNat = 256 := by decide
  have hnat : ((2 : Int) ^ 256 - 1).toNat = 2 ^ 256 - 1 := by decide
  simp only [GeneratePseudoRandomSalt, randInt, hmax, if_false, hbits, hnat]
  rfl

set_option maxRecDepth 100000 in
theorem clearTopBits_eight (bytes : Bytes) : clearTopBits 8 bytes = bytes := by
  cases bytes with
  | nil => rfl
  | cons x rest =>
      have h : ∀ y : Byte, (Fin.ofNat (y.val % 2 ^ 8) : Byte) = y := by decide
      simp only [clearTopBits, h]

/-- C15: whenever `GeneratePseudoRandomSalt` returns a salt, the salt is at
least 0 and below 2^256 - 1; whenever it returns an error, that error is one
a read of the random source gave; it never panics; and it does return once a
read fails or yields 32 bytes that spell a number below 2^256 - 1. -/
theorem C15_salt_below_max (reader : Nat → Except String Bytes) (fuel : Nat) :
    (∀ n, GeneratePseudoRandomSalt reader fuel = some (Returned.value n) →
      0 ≤ n ∧ n < 2 ^ 256 - 1 ∧ n < 2 ^ 256) ∧
    (∀ err, GeneratePseudoRandomSalt reader fuel = some (Returned.error err) →
      ∃ i, reader i = Except.error err) ∧
    (∀ msg, GeneratePseudoRandomSalt reader fuel ≠ some (Returned.panic msg)) ∧
    (∀ i, i < fuel → (∀ bytes, reader i = Except.ok bytes → SetBytes bytes < 2 ^ 256 - 1) →
      ∃ r, GeneratePseudoRandomSalt reader fuel = some r) := by
  rw [GeneratePseudoRandomSalt_eq_loop]
  refine ⟨?_, ?_, ?_, ?_⟩
  · intro n h
    have hb := randIntLoop_value reader _ 8 fuel 0 n h
    have hcast : ((2 ^ 256 - 1 : Nat) : Int) = 2 ^ 256 - 1 := by norm_num
    rw [hcast] at hb
    exact ⟨hb.1, hb.2, by omega⟩
  · intro err h
    obtain ⟨j, _, _, hj⟩ := randIntLoop_error reader _ 8 fuel 0 err h
    exact ⟨j, hj⟩
  · exact randIntLoop_no_panic reader _ 8 fuel 0
  · intro i hi hgood
    exact randIntLoop_returns reader _ 8 i
      (by intro bytes hb; rw [clearTopBits_eight]; exact hgood bytes hb)
      fuel 0 (Nat.zero_le i) (by omega)

set_option maxRecDepth 100000 in
theorem C15_salt_below_max_witness :
    GeneratePseudoRandomSalt sampleReader 5 = some (Returned.value 5) ∧
    ((0 : Int) ≤ 5 ∧ (5 : Int) < 2 ^ 256 - 1 ∧ (5 : Int) < 2 ^ 256) :=
  ⟨by decide, (C15_salt_below_max sampleReader 5).1 5 (by decide)⟩
/-! ### Orders -/

set_option maxRecDepth 100000 in
theorem EncodeERC20AssetData_null_length : (EncodeERC20AssetData NULL_ADDRESS).length = 36 := by
  decide

/-- C12: when salt generation succeeds, `CreateOrder` returns an order whose
maker and taker asset data are the ERC-20 encodings of the two assets, the
null address included, and whose maker (taker) fee asset data is empty when
the maker (taker) fee asset is the null address and its ERC-20 encoding
otherwise, each of the two decided on its own; the salt is the generated one. -/
theorem C12_CreateOrder_asset_data (zh : ZeroExHelper) (reader : Nat → Except String Bytes)
    (fuel : Nat) (maker taker sender feeRecipient makerAsset takerAsset : Address)
    (makerAmount takerAmount makerFee takerFee : Option Int)
    (makerFeeAsset takerFeeAsset : Address) (expirationTimeSeconds : Option Int) (salt : Int)
    (hsalt : GeneratePseudoRandomSalt reader fuel = some (Returned.value salt)) :
    ∃ order : Order,
      zh.CreateOrder reader fuel maker taker sender feeRecipient makerAsset takerAsset
        makerAmount takerAmount makerFee takerFee makerFeeAsset takerFeeAsset
        expirationTimeSeconds = some (Returned.value order) ∧
      order.MakerAssetData = EncodeERC20AssetData makerAsset ∧
      order.TakerAssetData = EncodeERC20AssetData takerAsset ∧
      order.MakerFeeAssetData
        = (if makerFeeAsset = NULL_ADDRESS then [] else EncodeERC20AssetData makerFeeAsset) ∧
      order.TakerFeeAssetData
        = (if takerFeeAsset = NULL_ADDRESS then [] else EncodeERC20AssetData takerFeeAsset) ∧
      (makerFeeAsset = NULL_ADDRESS → order.MakerFeeAssetData.length = 0) ∧
      (takerFeeAsset = NULL_ADDRESS → order.TakerFeeAssetData.length = 0) ∧
      (EncodeERC20AssetData NULL_ADDRESS).length = 36 ∧
      order.Salt = some salt := by
  unfold ZeroExHelper.CreateOrder
  rw [hsalt]
  refine ⟨_, rfl, rfl, rfl, ?_, ?_, ?_, ?_, ?_, rfl⟩
  · by_cases h : makerFeeAsset = NULL_ADDRESS <;> simp [h]
  · by_cases h : takerFeeAsset = NULL_ADDRESS <;> simp [h]
  · intro h; simp [h]
  · intro h; simp [h]
  · exact EncodeERC20AssetData_null_length

set_option maxRecDepth 100000 in
theorem C12_CreateOrder_asset_data_witness :
    ∃ order : Order,
      sampleHelper.CreateOrder sampleReader 5 Address.zero Address.zero Address.zero
        Address.zero (HexToAddress mainnetExchange) NULL_ADDRESS (some 1) (some 2) none none
        NULL_ADDRESS (HexToAddress mainnetExchange) none = some (Returned.value order) ∧
      order.MakerAssetData = EncodeERC20AssetData (HexToAddress mainnetExchange) ∧
      order.TakerAssetData = EncodeERC20AssetData NULL_ADDRESS ∧
      order.MakerFeeAssetData
        = (if NULL_ADDRESS = NULL_ADDRESS then [] else EncodeERC20AssetData NULL_ADDRESS) ∧
      order.TakerFeeAssetData
        = (if HexToAddress mainnetExchange = NULL_ADDRESS then []
            else EncodeERC20AssetData (HexToAddress mainnetExchange)) ∧
      (NULL_ADDRESS = NULL_ADDRESS → order.MakerFeeAssetData.length = 0) ∧
      (HexToAddress mainnetExchange = NULL_ADDRESS → order.TakerFeeAssetData.length = 0) ∧
      (EncodeERC20AssetData NULL_ADDRESS).length = 36 ∧
      order.Salt = some 5 :=
  C12_CreateOrder_asset_data sampleHelper sampleReader 5 Address.zero Address.zero Address.zero
    Address.zero (HexToAddress mainnetExchange) NULL_ADDRESS (some 1) (some 2) none none
    NULL_ADDRESS (HexToAddress mainnetExchange) none 5 (by decide)

/-! ### Validating a fill -/

/-- C13: when the validator accepts the single order and rejects none,
`ValidateFill` returns no error and asks for no balance if the taker is the
null address; for any other taker whose balance query succeeds it returns the
insufficient-allowance error when the allowance is below the order's
TakerAssetAmount, else the insufficient-balance error when the balance is
below it, and no error when both are at least that amount. -/
theorem C13_ValidateFill_taker_checks (zh : ZeroExHelper) (order : SignedOrder)
    (takerAssetAmount : Option Int)
    (haccepted : (zh.BatchValidate [order]).Accepted.length = 1)
    (hrejected : (zh.BatchValidate [order]).Rejected = []) :
    (order.TakerAddress = NULL_ADDRESS →
      zh.ValidateFill order takerAssetAmount = (Outcome.ok, [])) ∧
    (∀ (info : BalanceInfo) (want : Int), order.TakerAddress ≠ NULL_ADDRESS →
      zh.GetBalanceAndAssetProxyAllowance order.TakerAddress order.TakerAssetData
        = Except.ok info →
      order.TakerAssetAmount = some want →
      (info.Allowance < want →
        (zh.ValidateFill order takerAssetAmount).1 = Outcome.error
          ("taker has insufficient allowance for trade: (has: "
            ++ goString (bigString (some info.Allowance)) ++ "), (want: "
            ++ goString (bigString (some want)) ++ ")")) ∧
      (want ≤ info.Allowance → info.Balance < want →
        (zh.ValidateFill order takerAssetAmount).1 = Outcome.error
          ("taker has insufficient balance for trade: (has: "
            ++ goString (bigString (some info.Balance)) ++ "), (want: "
            ++ goString (bigString (some want)) ++ ")")) ∧
      (want ≤ info.Allowance → want ≤ info.Balance →
        (zh.ValidateFill order takerAssetAmount).1 = Outcome.ok)) := by
  have hlen : ¬ (zh.BatchValidate [order]).Accepted.length ≠ 1 := by simp [haccepted]
  constructor
  · intro hnull
    simp only [ZeroExHelper.ValidateFill, hrejected, hlen, if_false, hnull, if_true]
  · intro info want hnn hquery hwant
    simp only [ZeroExHelper.ValidateFill, hrejected, hlen, if_false, hnn, hquery, hwant]
    refine ⟨fun h => ?_, fun h1 h2 => ?_, fun h1 h2 => ?_⟩
    · have hgt : want > info.Allowance := h
      simp only [hgt, if_true]
    · have h1n : ¬ want > info.Allowance := by omega
      have hgt : want > info.Balance := h2
      simp only [h1n, hgt, if_false, if_true]
    · have h1n : ¬ want > info.Allowance := by omega
      have h2n : ¬ want > info.Balance := by omega
      simp only [h1n, h2n, if_false]

set_option maxRecDepth 100000 in
theorem C13_ValidateFill_taker_checks_witness :
    (99 : Int) < 100 ∧
    (sampleHelper.ValidateFill sampleOrder (some 1)).1 = Outcome.error
      ("taker has insufficient allowance for trade: (has: "
        ++ goString (bigString (some 99)) ++ "), (want: "
        ++ goString (bigString (some 100)) ++ ")") :=
  ⟨by decide,
   ((C13_ValidateFill_taker_checks sampleHelper sampleOrder (some 1) rfl rfl).2
      { Balance := 100, Allowance := 99 } 100 (by decide) rfl rfl).1 (by decide)⟩

/-- C14: whatever the validator returns for the single order, one rejected
order makes `ValidateFill` return the validator's status message of that
rejection as the error, and otherwise a number of accepted orders other than
one makes it return "unable to validate order"; neither case asks for a
balance or allowance. -/
theorem C14_ValidateFill_validator_errors (zh : ZeroExHelper) (order : SignedOrder)
    (takerAssetAmount : Option Int) :
    (∀ rejected, (zh.BatchValidate [order]).Rejected = [rejected] →
      zh.ValidateFill order takerAssetAmount = (Outcome.error rejected.Status.Message, [])) ∧
    ((zh.BatchValidate [order]).Rejected.length ≠ 1 →
      (zh.BatchValidate [order]).Accepted.length ≠ 1 →
      zh.ValidateFill order takerAssetAmount
        = (Outcome.error "unable to validate order", [])) := by
  constructor
  · intro rejected h
    simp only [ZeroExHelper.ValidateFill, h]
  · intro hrej hacc
    cases hR : (zh.BatchValidate [order]).Rejected with
    | nil => simp only [ZeroExHelper.ValidateFill, hR, hacc, ne_eq, not_false_eq_true, if_true]
    | cons r rest =>
        cases rest with
        | nil => rw [hR] at hrej; exact absurd rfl hrej
        | cons r2 rest2 =>
            simp only [ZeroExHelper.ValidateFill, hR, hacc, ne_eq, not_false_eq_true, if_true]

theorem C14_ValidateFill_validator_errors_witness :
    rejectingHelper.ValidateFill sampleOrder none = (Outcome.error "order expired", []) :=
  (C14_ValidateFill_validator_errors rejectingHelper sampleOrder none).1
    (RejectedOrderInfo.mk sampleOrder { Code := "OrderExpired", Message := "order expired" })
    rfl

set_option maxRecDepth 100000 in
theorem ValidateFill_reads_order_amount :
    (sampleHelper.ValidateFill sampleOrder (some 1)).1 ≠ Outcome.ok ∧
    (sampleHelper.ValidateFill
      (SignedOrder.mk { sampleOrder.toOrder with TakerAssetAmount := some 99 } [])
      (some 100)).1 = Outcome.ok := by
  decide

/-- C17: two calls of `ValidateFill` that differ only in the
`takerAssetAmount` argument have the same outcome and make the same queries,
for every order, validator and balance result; the amount compared is the
order's own TakerAssetAmount: with allowance 99, an order for 100 fails
although the argument is 1, and an order for 99 passes although the argument
is 100. -/
theorem C17_ValidateFill_ignores_amount_argument :
    (∀ (zh : ZeroExHelper) (order : SignedOrder) (amount1 amount2 : Option Int),
      zh.ValidateFill order amount1 = zh.ValidateFill order amount2) ∧
    (sampleHelper.ValidateFill sampleOrder (some 1)).1 ≠ Outcome.ok ∧
    (sampleHelper.ValidateFill
      (SignedOrder.mk { sampleOrder.toOrder with TakerAssetAmount := some 99 } [])
      (some 100)).1 = Outcome.ok :=
  ⟨fun _ _ _ _ => rfl, ValidateFill_reads_order_amount⟩

/-! ### Signing a transaction -/

theorem ComputeHashForChainID_SignerAddress (env : Env) (tx : Transaction) (c : Int) :
    (tx.ComputeHashForChainID env c).2.Salt = tx.Salt ∧
    (tx.ComputeHashForChainID env c).2.ExpirationTimeSeconds = tx.ExpirationTimeSeconds ∧
    (tx.ComputeHashForChainID env c).2.GasPrice = tx.GasPrice ∧
    (tx.ComputeHashForChainID env c).2.SignerAddress = tx.SignerAddress ∧
    (tx.ComputeHashForChainID env c).2.Data = tx.Data := by
  have h := ComputeHashForChainID_fields env tx c
  simp only [Transaction.fresh, Transaction.mk.injEq, and_true] at h
  exact h

/-- C16: if hashing returns `h` with no error and the signer returns
`(v, r, s)` for `h` and the signer address of the transaction,
`SignTransaction` returns a signed transaction with the five fields of the
input and the 66-byte signature `v, r, s, 3`; if hashing fails, or the signer
fails, it returns that error and no signed transaction. -/
theorem C16_SignTransaction (env : Env)
    (signer : Bytes → Address → Except String ECSignature) (tx : Transaction) (chainID : Int) :
    (∀ (h : Hash) (sig : ECSignature),
      (tx.ComputeHashForChainID env chainID).1 = (h, none) →
      signer h.val tx.SignerAddress = Except.ok sig →
      ∃ stx : SignedTransaction,
        (SignTransaction env signer tx chainID).1 = Except.ok stx ∧
        stx.Salt = tx.Salt ∧ stx.ExpirationTimeSeconds = tx.ExpirationTimeSeconds ∧
        stx.GasPrice = tx.GasPrice ∧ stx.SignerAddress = tx.SignerAddress ∧
        stx.Data = tx.Data ∧
        stx.Signature = sig.V :: (sig.R.val ++ sig.S.val ++ [EthSignSignature]) ∧
        stx.Signature.length = 66) ∧
    (∀ (h : Hash) (err : String),
      (tx.ComputeHashForChainID env chainID).1 = (h, some err) →
      (SignTransaction env signer tx chainID).1 = Except.error err) ∧
    (∀ (h : Hash) (err : String),
      (tx.ComputeHashForChainID env chainID).1 = (h, none) →
      signer h.val tx.SignerAddress = Except.error err →
      (SignTransaction env signer tx chainID).1 = Except.error err) := by
  have hf := ComputeHashForChainID_SignerAddress env tx chainID
  generalize hres : tx.ComputeHashForChainID env chainID = res at hf
  obtain ⟨⟨h0, e0⟩, tx1⟩ := res
  simp only at hf
  refine ⟨?_, ?_, ?_⟩
  · intro h sig hh hsig
    simp only [Prod.mk.injEq] at hh
    obtain ⟨rfl, rfl⟩ := hh
    rw [← hf.2.2.2.1] at hsig
    refine ⟨SignedTransaction.mk tx1 (ECSignatureToBytes sig), ?_, hf.1, hf.2.1, hf.2.2.1,
      hf.2.2.2.1, hf.2.2.2.2, ECSignatureToBytes_eq sig, ?_⟩
    · simp only [SignTransaction, hres, hsig]
    · rw [ECSignatureToBytes_eq]
      simp [sig.R.property, sig.S.property]
  · intro h err hh
    simp only [Prod.mk.injEq] at hh
    obtain ⟨rfl, rfl⟩ := hh
    simp only [SignTransaction, hres]
  · intro h err hh hsig
    simp only [Prod.mk.injEq] at hh
    obtain ⟨rfl, rfl⟩ := hh
    rw [← hf.2.2.2.1] at hsig
    simp only [SignTransaction, hres, hsig]

set_option maxRecDepth 100000 in
theorem C16_SignTransaction_witness :
    ∃ stx : SignedTransaction,
      (SignTransaction standInEnv (fun _ _ => Except.ok sampleSignature) sampleTx 1337).1
        = Except.ok stx ∧
      stx.Salt = sampleTx.Salt ∧ stx.ExpirationTimeSeconds = sampleTx.ExpirationTimeSeconds ∧
      stx.GasPrice = sampleTx.GasPrice ∧ stx.SignerAddress = sampleTx.SignerAddress ∧
      stx.Data = sampleTx.Data ∧
      stx.Signature = sampleSignature.V ::
        (sampleSignature.R.val ++ sampleSignature.S.val ++ [EthSignSignature]) ∧
      stx.Signature.length = 66 :=
  (C16_SignTransaction standInEnv (fun _ _ => Except.ok sampleSignature) sampleTx 1337).1
    (standInEnv.Keccak256 (rawData (BytesToHash [4]).val (BytesToHash [5]).val))
    sampleSignature rfl rfl

/-! ### Unmarshalling and the state of the receiver -/

theorem fromJSON_hash (tx : Transaction) (raw : transactionJSON) :
    (tx.fromJSON raw).2.hash = tx.hash := by
  unfold Transaction.fromJSON
  split
  · rfl
  · split
    · rfl
    · split
      · rfl
      · simp only
        split
        · rfl
        · split
          · split <;> rfl
          · split <;> rfl

theorem UnmarshalJSON_hash (tx : Transaction) (data : Bytes) :
    (tx.UnmarshalJSON data).2.hash = tx.hash := by
  unfold Transaction.UnmarshalJSON Transaction.UnmarshalJSONWith
  split
  · rfl
  · exact fromJSON_hash tx _

/-- C18: `UnmarshalJSON` leaves the hash cache as it is, however it ends; so
with a cached hash `h`, unmarshalling any JSON, other field values included,
keeps `h` in the cache and the next `ComputeHashForChainID` returns `h` for
any chain id. -/
theorem C18_UnmarshalJSON_keeps_cache (env : Env) (tx : Transaction) (data : Bytes) (h : Hash)
    (hcache : tx.hash = some h) :
    (tx.UnmarshalJSON data).2.hash = some h ∧
    ∀ c, (tx.UnmarshalJSON data).2.ComputeHashForChainID env c
      = ((h, none), (tx.UnmarshalJSON data).2) := by
  have hkept : (tx.UnmarshalJSON data).2.hash = some h := by
    rw [UnmarshalJSON_hash, hcache]
  exact ⟨hkept, fun c => ComputeHashForChainID_cached env _ c h hkept⟩

set_option maxRecDepth 100000 in
theorem C18_UnmarshalJSON_keeps_cache_witness :
    (({ sampleTx with hash := some Hash.zero } : Transaction).UnmarshalJSON (ascii
      "\x7b\"salt\":\"1\",\"expirationTimeSeconds\":\"2\",\"gasPrice\":\"3\",\"signerAddress\":\"0x01\",\"data\":\"0x\"\x7d"))
      = (Outcome.ok,
          { Salt := some 1, ExpirationTimeSeconds := some 2, GasPrice := some 3,
            SignerAddress := HexToAddress (ascii "0x01"), Data := [], hash := some Hash.zero })
    ∧ ((({ sampleTx with hash := some Hash.zero } : Transaction).UnmarshalJSON (ascii
      "\x7b\"salt\":\"1\",\"expirationTimeSeconds\":\"2\",\"gasPrice\":\"3\",\"signerAddress\":\"0x01\",\"data\":\"0x\"\x7d")).2.hash
        = some Hash.zero ∧
      ∀ c, (({ sampleTx with hash := some Hash.zero } : Transaction).UnmarshalJSON (ascii
        "\x7b\"salt\":\"1\",\"expirationTimeSeconds\":\"2\",\"gasPrice\":\"3\",\"signerAddress\":\"0x01\",\"data\":\"0x\"\x7d")).2.ComputeHashForChainID
          standInEnv c
        = ((Hash.zero, none),
            (({ sampleTx with hash := some Hash.zero } : Transaction).UnmarshalJSON (ascii
              "\x7b\"salt\":\"1\",\"expirationTimeSeconds\":\"2\",\"gasPrice\":\"3\",\"signerAddress\":\"0x01\",\"data\":\"0x\"\x7d")).2)) :=
  ⟨by decide,
   C18_UnmarshalJSON_keeps_cache standInEnv { sampleTx with hash := some Hash.zero } _
     Hash.zero rfl⟩

/-- The errors of `hexutil.Decode` are four fixed texts. -/
theorem hexutilDecode_error_text (s : Bytes) (e : String) (h : (hexutilDecode s).2 = some e) :
    e = "empty hex string" ∨ e = "hex string without 0x prefix" ∨ e = "invalid hex string" ∨
      e = "hex string of odd length" := by
  unfold hexutilDecode at h
  split at h
  · simp only [Option.some.injEq] at h
    exact Or.inl h.symm
  · split at h
    · simp only [Option.some.injEq] at h
      exact Or.inr (Or.inl h.symm)
    · split at h
      · exact absurd h (by simp)
      · simp only [Option.some.injEq] at h
        exact Or.inr (Or.inr (Or.inl h.symm))
      · simp only [Option.some.injEq] at h
        exact Or.inr (Or.inr (Or.inr h.symm))

/-- When `fromJSON` returns one of its three errors about a number, the
transaction is as it was. -/
theorem fromJSON_numeric_error_unchanged (tx : Transaction) (raw : transactionJSON)
    (msg : String) (h : (tx.fromJSON raw).1 = Outcome.error msg)
    (hmsg : msg = "unable to unmarshal value for \"salt\"" ∨
      msg = "unable to unmarshal value for \"expirationTimeSeconds\"" ∨
      msg = "unable to unmarshal value for \"gasPrice\"") :
    (tx.fromJSON raw).2 = tx := by
  by_cases h1 : SetString raw.Salt = none
  · rw [fromJSON_salt_error tx raw h1]
  by_cases h2 : SetString raw.ExpirationTimeSeconds = none
  · rw [fromJSON_expirationTimeSeconds_error tx raw h1 h2]
  by_cases h3 : SetString raw.GasPrice = none
  · rw [fromJSON_gasPrice_error tx raw h1 h2 h3]
  exfalso
  by_cases hlen : raw.Data.length < 2
  · rw [fromJSON_short_data_panics tx raw h1 h2 h3 hlen] at h
    exact absurd h (by simp)
  · have hlong := fromJSON_long_data tx raw h1 h2 h3 (by omega)
    cases hd : (hexutilDecode raw.Data).2 with
    | none =>
        rw [hlong.2 hd] at h
        exact absurd h (by simp)
    | some e =>
        rw [hlong.1 e hd] at h
        have he : e = msg := by simpa using h
        have htext := hexutilDecode_error_text raw.Data e hd
        rw [he] at htext
        rcases hmsg with hm | hm | hm <;> rw [hm] at htext <;> revert htext <;> decide

/-- C19: `UnmarshalJSON` leaves the transaction exactly as it was (salt,
expirationTimeSeconds, gasPrice, signerAddress, data and the cached hash)
whenever the error it returns is one of the three about a number; and it
returns such an error, the transaction unchanged, for every document that
`json.Unmarshal` decodes with a salt, expirationTimeSeconds or gasPrice that
is not a base-10 integer string. The statement is for every function in the
place of `json.Unmarshal`, the model `jsonUnmarshalTransaction` of
`Transaction.UnmarshalJSON` among them. -/
theorem C19_numeric_errors_leave_transaction
    (unmarshal : Bytes → Except String transactionJSON) (tx : Transaction) (data : Bytes) :
    (∀ msg, (tx.UnmarshalJSONWith unmarshal data).1 = Outcome.error msg →
      (msg = "unable to unmarshal value for \"salt\"" ∨
        msg = "unable to unmarshal value for \"expirationTimeSeconds\"" ∨
        msg = "unable to unmarshal value for \"gasPrice\"") →
      (tx.UnmarshalJSONWith unmarshal data).2 = tx)
    ∧ (∀ raw, unmarshal data = Except.ok raw →
      (SetString raw.Salt = none ∨ SetString raw.ExpirationTimeSeconds = none ∨
        SetString raw.GasPrice = none) →
      (tx.UnmarshalJSONWith unmarshal data).2 = tx ∧
      ((tx.UnmarshalJSONWith unmarshal data).1
          = Outcome.error "unable to unmarshal value for \"salt\"" ∨
        (tx.UnmarshalJSONWith unmarshal data).1
          = Outcome.error "unable to unmarshal value for \"expirationTimeSeconds\"" ∨
        (tx.UnmarshalJSONWith unmarshal data).1
          = Outcome.error "unable to unmarshal value for \"gasPrice\"")) := by
  refine ⟨fun msg hret hmsg => ?_, fun raw hraw hbad => ?_⟩
  · unfold Transaction.UnmarshalJSONWith at hret ⊢
    split
    · rfl
    · rename_i raw heq
      rw [heq] at hret
      exact fromJSON_numeric_error_unchanged tx raw msg hret hmsg
  · simp only [Transaction.UnmarshalJSONWith, hraw]
    by_cases h1 : SetString raw.Salt = none
    · rw [fromJSON_salt_error tx raw h1]
      exact ⟨rfl, Or.inl rfl⟩
    · by_cases h2 : SetString raw.ExpirationTimeSeconds = none
      · rw [fromJSON_expirationTimeSeconds_error tx raw h1 h2]
        exact ⟨rfl, Or.inr (Or.inl rfl)⟩
      · have h3 : SetString raw.GasPrice = none := by
          rcases hbad with h | h | h
          · exact absurd h h1
          · exact absurd h h2
          · exact h
        rw [fromJSON_gasPrice_error tx raw h1 h2 h3]
        exact ⟨rfl, Or.inr (Or.inr rfl)⟩

set_option maxRecDepth 100000 in
theorem C19_numeric_errors_leave_transaction_witness :
    (jsonUnmarshalTransaction
        (ascii "\x7b\"salt\":\"1" ++ [0xC3, 0xA9]
          ++ ascii "\",\"expirationTimeSeconds\":\"2\",\"gasPrice\":\"3.5\",\"signerAddress\":\"0x01\",\"data\":\"0x\"\x7d")
        = Except.ok ⟨[49, 0xC3, 0xA9], ascii "2", ascii "3.5", ascii "0x01", ascii "0x"⟩
      ∧ SetString [49, 0xC3, 0xA9] = none) ∧
    (sampleTx.UnmarshalJSON
        (ascii "\x7b\"salt\":\"1" ++ [0xC3, 0xA9]
          ++ ascii "\",\"expirationTimeSeconds\":\"2\",\"gasPrice\":\"3.5\",\"signerAddress\":\"0x01\",\"data\":\"0x\"\x7d")).2
      = sampleTx :=
  ⟨⟨rfl, by decide⟩,
   ((C19_numeric_errors_leave_transaction jsonUnmarshalTransaction sampleTx
      (ascii "\x7b\"salt\":\"1" ++ [0xC3, 0xA9]
          ++ ascii "\",\"expirationTimeSeconds\":\"2\",\"gasPrice\":\"3.5\",\"signerAddress\":\"0x01\",\"data\":\"0x\"\x7d")).2
      ⟨[49, 0xC3, 0xA9], ascii "2", ascii "3.5", ascii "0x01", ascii "0x"⟩ (by rfl)
      (Or.inl (by decide))).1⟩

end Zrx
